import Mathlib

/-!
# datadog-firehose-nozzle: workload metadata cache, envelope processor, configuration

A shallow embedding of `internal/processor/parser/app.go` (the `AppParser`
cache, its refresh routine `getAppData`, the eviction sweep, the start-up
reload and the container-metric packages) and of `internal/config/config.go`
(`AsLogString`, `Parse` and the environment overrides), together with a model
of the envelope processor of `internal/processor`, followed by theorems about
them.

Conventions of the embedding

* Go `int`, `int64`, `time.Duration` are `Int`; where the code multiplies,
  the result is wrapped to 64 bits with `wrapInt64`.
* `time.Time` is the number of nanoseconds since the Unix epoch (an `Int`);
  `Time.Unix` is the floor division by `10^9`.
* `map[string]T` is an `AList` (association list without duplicate keys).
* A `*App` stored in `Apps` is represented by the record value stored under
  its guid; mutation through the pointer is `AList.replace` at that guid.
* A Go slice or map that may be nil is an `Option` where nil matters.
* A routine that can panic returns an `Option`, `none` for the panic.
* Locks, logging and the background goroutine are not represented.
-/

namespace Nozzle

/-! ## Machine integers and time -/

/-- Two's-complement wrap of an integer to the range of Go's `int64`. -/
def wrapInt64 (x : Int) : Int := (x + 2 ^ 63) % 2 ^ 64 - 2 ^ 63

/-- The Go constant `time.Minute`, in nanoseconds. -/
def Minute : Int := 60 * 1000000000

/-- The Go method `Time.Add`, on nanoseconds since the epoch. -/
def timeAdd (t d : Int) : Int := t + d

/-- The Go method `Time.Unix`: whole seconds since the epoch. -/
def timeUnix (t : Int) : Int := t / 1000000000

/-- The expression `-time.Duration(n) * time.Minute` with `int64` arithmetic. -/
def negMinutes (n : Int) : Int := wrapInt64 (wrapInt64 (-n) * Minute)

/-- The global `clearCacheDuration` of app.go (minutes). -/
def clearCacheDuration : Int := 60

/-! ## The App record -/

/-- The Go struct `Instance`. -/
structure Instance where
  CellIP : String
  State : String
  InstanceIndex : String
deriving DecidableEq, Repr

/-- The Go struct `App` without its lock. -/
structure App where
  Name : String
  Host : String
  Buildpack : String
  Command : String
  Diego : Bool
  OrgName : String
  OrgID : String
  Routes : List String
  SpaceID : String
  SpaceName : String
  SpaceURL : String
  GUID : String
  DockerImage : String
  Instances : AList (fun _ : String => Instance)
  NumberOfInstances : Int
  TotalDiskConfigured : Int
  TotalMemoryConfigured : Int
  TotalDiskProvisioned : Int
  TotalMemoryProvisioned : Int
  ErrorGrabbing : Bool
  Tags : List String
  updated : Int
deriving DecidableEq

/-- The Go function `newApp`: a skeleton holding only the guid and the time
of creation; every other field has its zero value. -/
def newApp (guid : String) (now : Int) : App :=
  { Name := "", Host := "", Buildpack := "", Command := "", Diego := false,
    OrgName := "", OrgID := "", Routes := [], SpaceID := "", SpaceName := "",
    SpaceURL := "", GUID := guid, DockerImage := "", Instances := ∅,
    NumberOfInstances := 0, TotalDiskConfigured := 0, TotalMemoryConfigured := 0,
    TotalDiskProvisioned := 0, TotalMemoryProvisioned := 0,
    ErrorGrabbing := false, Tags := [], updated := timeUnix now }

/-- One `if cond { tags = append(tags, tag) }` step of `generateTags`. -/
def appendIf (tags : List String) (cond : Bool) (tag : String) : List String :=
  if cond then tags ++ [tag] else tags

/-- The Go method `App.generateTags`: eleven guarded appends in source order. -/
def generateTags (a : App) : List String :=
  let tags : List String := []
  let tags := appendIf tags (a.Name != "") ("app_name:" ++ a.Name)
  let tags := appendIf tags (a.Buildpack != "") ("buildpack:" ++ a.Buildpack)
  let tags := appendIf tags (a.Command != "") ("command:" ++ a.Command)
  let tags := appendIf tags a.Diego "diego"
  let tags := appendIf tags (a.OrgName != "") ("org_name:" ++ a.OrgName)
  let tags := appendIf tags (a.OrgID != "") ("org_id:" ++ a.OrgID)
  let tags := appendIf tags (a.SpaceName != "") ("space_name:" ++ a.SpaceName)
  let tags := appendIf tags (a.SpaceID != "") ("space_id:" ++ a.SpaceID)
  let tags := appendIf tags (a.SpaceURL != "") ("space_url:" ++ a.SpaceURL)
  let tags := appendIf tags (a.GUID != "") ("guid:" ++ a.GUID)
  let tags := appendIf tags (a.DockerImage != "") ("image:" ++ a.DockerImage)
  tags

/-- The tag order as the specification words it: the eleven candidate tags in
order, each kept exactly when its attribute is non-empty (`Diego` set for the
literal). It reads only the eleven attributes passed to it. -/
def tagsOfAttributes (name buildpack command : String) (diego : Bool)
    (orgName orgID spaceName spaceID spaceURL guid image : String) : List String :=
  (if name = "" then [] else ["app_name:" ++ name]) ++
  (if buildpack = "" then [] else ["buildpack:" ++ buildpack]) ++
  (if command = "" then [] else ["command:" ++ command]) ++
  (if diego = true then ["diego"] else []) ++
  (if orgName = "" then [] else ["org_name:" ++ orgName]) ++
  (if orgID = "" then [] else ["org_id:" ++ orgID]) ++
  (if spaceName = "" then [] else ["space_name:" ++ spaceName]) ++
  (if spaceID = "" then [] else ["space_id:" ++ spaceID]) ++
  (if spaceURL = "" then [] else ["space_url:" ++ spaceURL]) ++
  (if guid = "" then [] else ["guid:" ++ guid]) ++
  (if image = "" then [] else ["image:" ++ image])

/-! ## The control-plane client -/

/-- The fields of cfclient's `App` that `getAppData` reads. -/
structure CFApp where
  Guid : String
  Name : String
  Buildpack : String
  DetectedBuildpack : String
  Command : String
  DockerImage : String
  Diego : Bool
  SpaceGuid : String
  DiskQuota : Int
  Memory : Int
deriving DecidableEq

/-- The field of cfclient's `AppInstance` that `getAppData` reads. -/
structure CFAppInstance where
  State : String
deriving DecidableEq

/-- The fields of cfclient's `Space` that `getAppData` reads. -/
structure CFSpace where
  Guid : String
  Name : String
deriving DecidableEq

/-- The fields of cfclient's `Org` that `getAppData` reads. -/
structure CFOrg where
  Guid : String
  Name : String
deriving DecidableEq

/-- The answers of the control plane during one call of `getAppData`: one
function per client call the routine makes, each of which may fail. -/
structure CFClient where
  AppByGuid : String → Except String CFApp
  GetAppInstances : String → Except String (AList (fun _ : String => CFAppInstance))
  Space : CFApp → Except String CFSpace
  Org : CFSpace → Except String CFOrg

/-- A control-plane call made by `getAppData`, recorded in call order. -/
inductive Fetch where
  | AppByGuid (guid : String)
  | GetAppInstances (guid : String)
  | Space (app : CFApp)
  | Org (space : CFSpace)
deriving DecidableEq

/-! ## The cache and its refresh routine -/

/-- The Go type `map[string]*App`. -/
abbrev AppMap := AList (fun _ : String => App)

/-- The Go struct `AppParser`: the fields the modelled routines read. The
client's answers are passed to each call, the store to the routines using it. -/
structure AppParser where
  Apps : AppMap
  grabInterval : Int
  customTags : List String
deriving DecidableEq

/-- What one call of `getAppData` produces: its two return values (`ret`),
the `Apps` map afterwards, and the control-plane calls made in order. -/
structure GetAppDataResult where
  ret : Except String App
  Apps : AppMap
  calls : List Fetch

/-- The local `timeToGrab` of `getAppData`:
`time.Now().Add(-time.Duration(am.grabInterval) * time.Minute).Unix()`. -/
def timeToGrab (now grabInterval : Int) : Int :=
  timeUnix (timeAdd now (negMinutes grabInterval))

/-- The loop of `getAppData` that rebuilds `app.Instances` from the fetched
instance map: every index `i` maps to `Instance{InstanceIndex: i, State}`. -/
def buildInstances (resolved : AList (fun _ : String => CFAppInstance)) :
    AList (fun _ : String => Instance) :=
  resolved.foldl
    (fun acc i inst => acc.insert i { CellIP := "", State := inst.State, InstanceIndex := i }) ∅

/-- Lines 177-231 of app.go: the update of the record once `AppByGuid` has
succeeded. `now2` is the clock at `app.updated = time.Now().Unix()`. Returns
the updated record and the follow-up calls made. -/
def applyResolved (cf : CFClient) (guid : String) (app : App) (resolvedApp : CFApp)
    (now2 : Int) : App × List Fetch :=
  let app := { app with ErrorGrabbing := false, updated := timeUnix now2 }
  let app := { app with Name := resolvedApp.Name }
  let app :=
    if resolvedApp.Buildpack != "" then { app with Buildpack := resolvedApp.Buildpack }
    else if resolvedApp.DetectedBuildpack != "" then
      { app with Buildpack := resolvedApp.DetectedBuildpack }
    else app
  let app := { app with Command := resolvedApp.Command, DockerImage := resolvedApp.DockerImage,
                        Diego := resolvedApp.Diego, SpaceID := resolvedApp.SpaceGuid }
  let app :=
    match cf.GetAppInstances guid with
    | .ok resolvedInstances =>
      { app with Instances := buildInstances resolvedInstances,
                 NumberOfInstances := resolvedInstances.entries.length }
    | .error _ => app
  let app := { app with
    TotalDiskConfigured := resolvedApp.DiskQuota,
    TotalMemoryConfigured := resolvedApp.Memory,
    TotalDiskProvisioned := wrapInt64 (resolvedApp.DiskQuota * app.NumberOfInstances),
    TotalMemoryProvisioned := wrapInt64 (resolvedApp.Memory * app.NumberOfInstances) }
  let (app, calls) :=
    match cf.Space resolvedApp with
    | .ok space =>
      let app := { app with SpaceName := space.Name }
      match cf.Org space with
      | .ok org => ({ app with OrgName := org.Name, OrgID := org.Guid },
                    [Fetch.Space resolvedApp, Fetch.Org space])
      | .error _ => ({ app with ErrorGrabbing := true },
                    [Fetch.Space resolvedApp, Fetch.Org space])
    | .error _ => ({ app with ErrorGrabbing := true }, [Fetch.Space resolvedApp])
  let app := { app with Tags := generateTags app }
  (app, Fetch.GetAppInstances guid :: calls)

/-- Lines 159-231 of app.go: the refresh of the record `app`, which is the
record stored under `guid` in `apps`. -/
def refreshApp (apps : AppMap) (cf : CFClient) (guid : String) (app : App) (now2 : Int) :
    GetAppDataResult :=
  match cf.AppByGuid guid with
  | .error err =>
    if app.ErrorGrabbing then
      -- delete(am.Apps, guid); the flag is then set on the detached record
      { ret := .error err, Apps := apps.erase guid, calls := [Fetch.AppByGuid guid] }
    else
      { ret := .error err, Apps := apps.replace guid { app with ErrorGrabbing := true },
        calls := [Fetch.AppByGuid guid] }
  | .ok resolvedApp =>
    let r := applyResolved cf guid app resolvedApp now2
    { ret := .ok r.1, Apps := apps.replace guid r.1, calls := Fetch.AppByGuid guid :: r.2 }

/-- The Go method `AppParser.getAppData`. `cf` gives the control plane's
answers during the call, `now` is the clock at the first `time.Now()` (the
freshness test, or `newApp` on a miss) and `now2` the clock at the second. -/
def getAppData (am : AppParser) (cf : CFClient) (guid : String) (now now2 : Int) :
    GetAppDataResult :=
  match am.Apps.lookup guid with
  | some app =>
    if !app.ErrorGrabbing && decide (app.updated > timeToGrab now am.grabInterval) then
      { ret := .ok app, Apps := am.Apps, calls := [] }
    else
      refreshApp am.Apps cf guid app now2
  | none =>
    let app := newApp guid now
    refreshApp (am.Apps.insert guid app) cf guid app now2

/-! ## Container-metric packages -/

/-- The conversions to Go's `float64` that the package builders apply:
`float64(x)` for an `int`, for a `uint64`, and the `float64` zero value. -/
structure Float64Conv (F : Type) where
  ofInt : Int → F
  ofUInt64 : Nat → F
  zero : F

/-- The Go struct `metric.Point`, over a type `F` of `float64` values. -/
structure Point (F : Type) where
  Timestamp : Int
  Value : F
deriving DecidableEq

/-- A `metric.MetricPackage` as built by `mkMetrics`: the name of its key,
and the host and points of its value. The tag list and its hash are computed
by `util.HashTags`, which is not among these sources, and are left out. -/
structure MetricPackage (F : Type) where
  Name : String
  Host : String
  Points : List (Point F)
deriving DecidableEq

/-- The sonde-go message `events.ContainerMetric`. -/
structure ContainerMetric (F : Type) where
  ApplicationId : String
  InstanceIndex : Int
  CpuPercentage : F
  MemoryBytes : Nat
  DiskBytes : Nat
  MemoryBytesQuota : Nat
  DiskBytesQuota : Nat

/-- The sonde-go `events.Envelope` as `Parse` reads it: its origin and its
container-metric message, `none` for a nil message. -/
structure Envelope (F : Type) where
  Origin : String
  ContainerMetric : Option (ContainerMetric F)

/-- The generated getter `GetApplicationId`, which is nil-safe. -/
def GetApplicationId {F : Type} (m : Option (ContainerMetric F)) : String :=
  match m with
  | some c => c.ApplicationId
  | none => ""

/-- The generated getter `GetCpuPercentage`, which is nil-safe. -/
def GetCpuPercentage {F : Type} (conv : Float64Conv F) (m : Option (ContainerMetric F)) : F :=
  match m with
  | some c => c.CpuPercentage
  | none => conv.zero

/-- The generated getter `GetDiskBytes`, which is nil-safe. -/
def GetDiskBytes {F : Type} (m : Option (ContainerMetric F)) : Nat :=
  match m with
  | some c => c.DiskBytes
  | none => 0

/-- The generated getter `GetDiskBytesQuota`, which is nil-safe. -/
def GetDiskBytesQuota {F : Type} (m : Option (ContainerMetric F)) : Nat :=
  match m with
  | some c => c.DiskBytesQuota
  | none => 0

/-- The generated getter `GetMemoryBytes`, which is nil-safe. -/
def GetMemoryBytes {F : Type} (m : Option (ContainerMetric F)) : Nat :=
  match m with
  | some c => c.MemoryBytes
  | none => 0

/-- The generated getter `GetMemoryBytesQuota`, which is nil-safe. -/
def GetMemoryBytesQuota {F : Type} (m : Option (ContainerMetric F)) : Nat :=
  match m with
  | some c => c.MemoryBytesQuota
  | none => 0

/-- The Go method `App.mkMetrics`: one package per name, in order, whose
single point holds `ms[i]` and the clock at iteration `i` (`clock i`, in
nanoseconds). `none` is the index-out-of-range panic of `ms[i]`. -/
def mkMetrics {F : Type} (a : App) (names : List String) (ms : List F) (clock : Nat → Int) :
    Option (List (MetricPackage F)) :=
  let host := if a.Host != "" then a.Host else a.GUID
  names.enum.mapM fun (i, name) =>
    match ms[i]? with
    | some v =>
      some { Name := name, Host := host,
             Points := [] ++ [{ Timestamp := timeUnix (clock i), Value := v }] }
    | none => none

/-- The Go method `App.getMetrics`. -/
def getMetrics {F : Type} (conv : Float64Conv F) (a : App) (clock : Nat → Int) :
    Option (List (MetricPackage F)) :=
  let names := ["app.disk.configured", "app.disk.provisioned", "app.memory.configured",
                "app.memory.provisioned", "app.instances"]
  let ms := [conv.ofInt a.TotalDiskConfigured, conv.ofInt a.TotalDiskProvisioned,
             conv.ofInt a.TotalMemoryConfigured, conv.ofInt a.TotalMemoryProvisioned,
             conv.ofInt a.NumberOfInstances]
  mkMetrics a names ms clock

/-- The Go method `App.parseContainerMetric`; its error result is always nil. -/
def parseContainerMetric {F : Type} (conv : Float64Conv F) (a : App)
    (message : Option (ContainerMetric F)) (clock : Nat → Int) :
    Option (List (MetricPackage F)) :=
  let names := ["app.cpu.pct", "app.disk.used", "app.disk.quota", "app.memory.used",
                "app.memory.quota"]
  let ms := [GetCpuPercentage conv message, conv.ofUInt64 (GetDiskBytes message),
             conv.ofUInt64 (GetDiskBytesQuota message), conv.ofUInt64 (GetMemoryBytes message),
             conv.ofUInt64 (GetMemoryBytesQuota message)]
  mkMetrics a names ms clock

/-- The two return values of `AppParser.Parse` and the control-plane calls
made on the way. -/
structure ParseResult (F : Type) where
  packages : List (MetricPackage F)
  err : Option String
  calls : List Fetch

/-- The Go method `AppParser.Parse`. `now`, `now2` are the clock readings of
`getAppData`; `clockApp` and `clockContainer` give the clock at each
iteration of the two `mkMetrics` loops. `none` would be a panic. -/
def Parse {F : Type} (conv : Float64Conv F) (am : AppParser) (cf : CFClient)
    (envelope : Envelope F) (now now2 : Int) (clockApp clockContainer : Nat → Int) :
    Option (ParseResult F) :=
  let message := envelope.ContainerMetric
  let guid := GetApplicationId message
  let r := getAppData am cf guid now now2
  match r.ret with
  | .error err => some { packages := [], err := some err, calls := r.calls }
  | .ok app =>
    let app := { app with Host := envelope.Origin }
    match getMetrics conv app clockApp with
    | none => none
    | some metricsPackages =>
      match parseContainerMetric conv app message clockContainer with
      | none => none
      | some containerMetrics =>
        some { packages := metricsPackages ++ containerMetrics, err := none, calls := r.calls }

/-- The package `mkMetrics` builds for one name: that name, the host (the
envelope's origin, else the guid) and one point. -/
def onePoint {F : Type} (name host : String) (clock : Int) (v : F) : MetricPackage F :=
  { Name := name, Host := host, Points := [{ Timestamp := timeUnix clock, Value := v }] }

/-! ## The eviction sweep -/

/-- A Go `[]byte`. -/
abbrev Bytes := List UInt8

/-- The bytes stored for a kept record: the result of `json.Marshal(app)`,
which is nil when marshalling fails (the failure is only logged). -/
def marshalled (marshal : App → Except String Bytes) (app : App) : Bytes :=
  match marshal app with
  | .ok jsonApp => jsonApp
  | .error _ => []

/-- One iteration of the loop `for guid, app := range am.Apps` of
`updateCacheLoop`, on the pair (`toRemove`, `updatedApps`). -/
def sweepStep (marshal : App → Except String Bytes) (oneHourAgo : Int)
    (acc : List String × AList (fun _ : String => Bytes)) (guid : String) (app : App) :
    List String × AList (fun _ : String => Bytes) :=
  if app.updated < oneHourAgo then (acc.1 ++ [guid], acc.2)
  else (acc.1, acc.2.insert guid (marshalled marshal app))

/-- The in-memory half of one tick of `updateCacheLoop`. -/
structure SweepResult where
  Apps : AppMap
  toRemove : List String
  updatedApps : AList (fun _ : String => Bytes)

/-- Lines 71-91 of app.go: one tick of `updateCacheLoop` at clock `now`, up to
the release of the map lock. `marshal` is `json.Marshal` on `*App`. -/
def sweepApps (marshal : App → Except String Bytes) (apps : AppMap) (now : Int) : SweepResult :=
  let oneHourAgo := timeUnix (timeAdd now (negMinutes clearCacheDuration))
  let acc := apps.foldl (sweepStep marshal oneHourAgo) ([], ∅)
  { Apps := acc.1.foldl (fun m guid => m.erase guid) apps,
    toRemove := acc.1,
    updatedApps := acc.2 }

/-- A write issued on the bolt bucket inside a batch. -/
inductive BoltOp where
  | Delete (key : String)
  | Put (key : String) (value : Bytes)
deriving DecidableEq

/-- Lines 95-109 of app.go: the function handed to `db.Batch` by the sweep,
as the writes it issues. `createBucket` is the outcome of
`tx.CreateBucketIfNotExists(am.appBucket)`. -/
def sweepBatch (createBucket : Except String Unit) (toRemove : List String)
    (updatedApps : AList (fun _ : String => Bytes)) : Except String (List BoltOp) :=
  match createBucket with
  | .error err => .error ("create bucket: " ++ err)
  | .ok _ =>
    .ok (toRemove.map BoltOp.Delete ++ updatedApps.entries.map fun e => BoltOp.Put e.1 e.2)

/-- One tick of `updateCacheLoop`: the parser afterwards and the batch. -/
def updateCacheTick (marshal : App → Except String Bytes) (createBucket : Except String Unit)
    (am : AppParser) (now : Int) : AppParser × Except String (List BoltOp) :=
  let r := sweepApps marshal am.Apps now
  ({ am with Apps := r.Apps }, sweepBatch createBucket r.toRemove r.updatedApps)

/-! ## Start-up: the reload of the cache from the store -/

/-- The bolt store as `reloadCache` meets it: the outcome of
`tx.CreateBucketIfNotExists(am.appBucket)` inside `db.Batch`, which is an
error, a nil bucket, or the bucket with its key/value pairs in the order
`ForEach` visits them. -/
structure BoltDB where
  bucket : Except String (Option (List (String × Bytes)))

/-- Go's `json.Unmarshal(data, v)` for `v` of type `*App`: `v` is `none` for
a nil pointer, for which Unmarshal returns an error whatever the data (an
`InvalidUnmarshalError`); otherwise the result is the record decoded from
`data` by `decode`. -/
def jsonUnmarshal (decode : Bytes → Except String App) (data : Bytes) (v : Option App) :
    Except String App :=
  match v with
  | none => .error "json: Unmarshal(nil *parser.App)"
  | some _ => decode data

/-- The `b.ForEach` loop of `reloadCache`: the callback declares
`var app *App`, passes that nil pointer to `json.Unmarshal`, returns its
error if any (which stops the iteration) and otherwise stores the record
under the key. As the pointer is nil, the storing branch is never reached. -/
def reloadEntries (decode : Bytes → Except String App) (apps : AppMap) :
    List (String × Bytes) → AppMap × Option String
  | [] => (apps, none)
  | (k, v) :: rest =>
    let guid := k
    let app : Option App := none
    match jsonUnmarshal decode v app with
    | .error err => (apps, some err)
    | .ok a => reloadEntries decode (apps.insert guid a) rest

/-- The Go method `AppParser.reloadCache`: the parser afterwards and the
error returned (`none` for nil). -/
def reloadCache (decode : Bytes → Except String App) (db : BoltDB) (am : AppParser) :
    AppParser × Option String :=
  match db.bucket with
  | .error err => (am, some ("create bucket: " ++ err))
  | .ok none => (am, some "bucket not created")
  | .ok (some entries) =>
    let r := reloadEntries decode am.Apps entries
    ({ am with Apps := r.1 }, r.2)

/-- The Go function `NewAppParser` (`cfClient` is `none` for a nil client).
The result of `reloadCache()` is discarded at line 56; the background
goroutine it starts is not represented. -/
def NewAppParser (decode : Bytes → Except String App) (cfClient : Option CFClient)
    (grabInterval : Int) (customTags : List String) (db : BoltDB) (environment : String) :
    Except String AppParser :=
  match cfClient with
  | none => .error "The CF Client needs to be properly set up to use appmetrics"
  | some _ =>
    let customTags :=
      if environment != "" then customTags ++ ["env:" ++ environment] else customTags
    let appMetrics : AppParser :=
      { Apps := ∅, grabInterval := grabInterval, customTags := customTags }
    let appMetrics := (reloadCache decode db appMetrics).1
    .ok appMetrics

/-! ## The envelope processor

`processor.go` and the infra parser it calls are not among these sources;
only `processor_test.go` is. The definitions of this section are modelled
from the words of the specification (section 4.1). Where `processor_test.go`
expects more than the specification says (no package for a gauge that
carries the five container values, a normalised deployment tag, a
`source_id` tag), the model follows the specification. -/

namespace Processor

/-- Modelled from the spec: a named gauge value `{unit, value}` of the
envelope shape of section 6 (the loggregator envelope type is not among the
sources). -/
structure GaugeValue (F : Type) where
  Unit : String
  Value : F

/-- Modelled from the spec: the counter payload `{name, delta, total}`. -/
structure Counter where
  Name : String
  Delta : Nat
  Total : Nat

/-- Modelled from the spec: the payload of an envelope, one of gauge,
counter, log or another kind. -/
inductive Message (F : Type) where
  | Gauge (Metrics : AList (fun _ : String => GaugeValue F))
  | Counter (c : Counter)
  | Log (Payload : Bytes)
  | Other

/-- Modelled from the spec: the envelope shape `{timestamp, sourceId,
instanceId, tags, payload}` of section 6; the origin is the tag `origin`. -/
structure Envelope (F : Type) where
  Timestamp : Int
  SourceId : String
  InstanceId : String
  Tags : AList (fun _ : String => String)
  Message : Message F

/-- Modelled from the spec: a metric package, by the name of its key and the
tags and points of its value. -/
structure MetricPackage (F : Type) where
  Name : String
  Tags : List String
  Points : List (Point F)

/-- Modelled from the spec: the tags one envelope tag `k = v` yields (rule 1
of the tag derivation of section 4.1): the pair verbatim; for `origin` also
`name:v`; for `job` also the normalised job; for `deployment`, only when an
environment name is configured, also `deployment:<raw>_<env>` and
`env:<env>`. The specification does not give the pattern of a partition
suffix, so the normalisation of a job name is the parameter `normalizeJob`. -/
def tagsOfEntry (normalizeJob : String → String) (environment : String) (k v : String) :
    List String :=
  [k ++ ":" ++ v] ++
  (if k = "origin" then ["name:" ++ v] else []) ++
  (if k = "job" then ["job:" ++ normalizeJob v] else []) ++
  (if k = "deployment" then
    (if environment = "" then []
     else ["deployment:" ++ v ++ "_" ++ environment, "env:" ++ environment])
   else [])

/-- Modelled from the spec: the tags of an envelope before deduplication and
sorting (rules 1 to 3 of section 4.1): those of every envelope tag,
`instance_id` when present, then the configured custom tags. An `index` is
one of the envelope's tags (as in processor_test.go), so rule 1 yields its
`index:<value>`. -/
def rawTags {F : Type} (normalizeJob : String → String) (environment : String)
    (customTags : List String) (e : Envelope F) : List String :=
  (e.Tags.entries.flatMap fun kv => tagsOfEntry normalizeJob environment kv.1 kv.2) ++
  (if e.InstanceId = "" then [] else ["instance_id:" ++ e.InstanceId]) ++
  customTags

/-- Modelled from the spec: the lexicographic order in which the absent
processor.go sorts the tags, by code point as Go's `sort.Strings` does. -/
def lexLE : List Char → List Char → Bool
  | [], _ => true
  | _ :: _, [] => false
  | a :: as, b :: bs =>
    if a.toNat < b.toNat then true
    else if b.toNat < a.toNat then false
    else lexLE as bs

/-- Modelled from the spec: the tag derivation of section 4.1 (in the absent
processor.go), a deduplicated, lexicographically sorted sequence of `key:value` strings. -/
def deriveTags {F : Type} (normalizeJob : String → String) (environment : String)
    (customTags : List String) (e : Envelope F) : List String :=
  ((rawTags normalizeJob environment customTags e).dedup).insertionSort
    (fun a b => lexLE a.toList b.toList = true)

/-- Modelled from the spec: the fixed legacy prefix of the name-alias rule of
the absent processor.go, as it appears in processor_test.go. -/
def legacyPrefix : String := "bosh-hm-forwarder."

/-- Modelled from the spec: the fixed internal prefix that replaces the
legacy prefix in an alias, as it appears in processor_test.go. -/
def aliasPrefix : String := "bosh.healthmonitor."

/-- Modelled from the spec: the name-alias rule: for a name that begins with
the legacy prefix, the alias that keeps the rest of the name. -/
def aliasName (name : String) : Option String :=
  if legacyPrefix.toList.isPrefixOf name.toList = true then
    some (aliasPrefix ++ String.mk (name.toList.drop legacyPrefix.length))
  else none

/-- Modelled from the spec: the names one metric name is emitted under: the
name itself, `<origin>.<name>` when the envelope has an origin tag, and the
alias when the name begins with the legacy prefix. -/
def metricNames (origin : Option String) (name : String) : List String :=
  [name] ++
  (match origin with
   | some o => [o ++ "." ++ name]
   | none => []) ++
  (match aliasName name with
   | some a => [a]
   | none => [])

/-- Modelled from the spec: the packages for one metric name and value: one
per name the metric is emitted under, each with the derived tags and a single
point. -/
def packagesFor {F : Type} (normalizeJob : String → String) (environment : String)
    (customTags : List String) (e : Envelope F) (name : String) (value : F) :
    List (MetricPackage F) :=
  (metricNames (e.Tags.lookup "origin") name).map fun n =>
    { Name := n, Tags := deriveTags normalizeJob environment customTags e,
      Points := [{ Timestamp := timeUnix e.Timestamp, Value := value }] }

/-- Modelled from the spec: `Process` of section 4.1, the method
`ProcessMetric` of the absent processor.go: every named value of a gauge
payload and the total of a counter payload are converted; any other payload
yields no package. -/
def ProcessMetric {F : Type} (conv : Float64Conv F) (normalizeJob : String → String)
    (environment : String) (customTags : List String) (e : Envelope F) :
    List (MetricPackage F) :=
  match e.Message with
  | .Gauge metrics =>
    metrics.entries.flatMap fun kv =>
      packagesFor normalizeJob environment customTags e kv.1 kv.2.Value
  | .Counter c => packagesFor normalizeJob environment customTags e c.Name (conv.ofUInt64 c.Total)
  | .Log _ => []
  | .Other => []

end Processor

/-! ## Concrete envelopes, after those of processor_test.go -/

namespace Processor

/-- A Go map literal of strings, as an `AList`. -/
def mkTags (l : List (String × String)) : AList (fun _ : String => String) :=
  l.foldr (fun kv m => m.insert kv.1 kv.2) ∅

/-- A gauge payload from a Go map literal; the values are whole numbers. -/
def gaugeOf (l : List (String × String × Int)) : Message Int :=
  .Gauge (l.foldr (fun kv m => m.insert kv.1 { Unit := kv.2.1, Value := kv.2.2 }) ∅)

/-- Whole numbers standing for the `float64` values of the tests. -/
def wholeConv : Float64Conv Int :=
  { ofInt := fun i => i, ofUInt64 := fun n => (n : Int), zero := 0 }

/-- The first envelope of the test "adds tags". -/
def addsTagsEnvelope : Envelope Int :=
  { Timestamp := 1000000000, SourceId := "some.source", InstanceId := "",
    Tags := mkTags [("origin", "test-origin"),
                    ("deployment", "deployment-name-aaaaaaaaaaaaaaaaaaaa"),
                    ("job", "doppler-partition-aaaaaaaaaaaaaaaaaaaa"),
                    ("ip", "10.0.1.2"), ("protocol", "http"), ("request_id", "a1f5-deadbeef")],
    Message := gaugeOf [("fooMetric", "counter", 5)] }

/-- An envelope whose tags carry a deployment and, besides, a tag named
`env`. -/
def envTagEnvelope : Envelope Int :=
  { Timestamp := 1000000000, SourceId := "", InstanceId := "",
    Tags := mkTags [("origin", "origin"), ("deployment", "cf"), ("env", "staging")],
    Message := gaugeOf [("fooMetric", "counter", 5)] }

/-- The envelope of the test "adds a new alias for bosh-hm-forwarder
metrics". -/
def aliasEnvelope : Envelope Int :=
  { Timestamp := 1000000000, SourceId := "", InstanceId := "",
    Tags := mkTags [("origin", "origin"), ("deployment", "deployment-name"),
                    ("job", "doppler")],
    Message := gaugeOf [("bosh-hm-forwarder.foo", "counter", 5)] }

/-- The envelope of the test "extracts multiple values from Gauge if it has
multiple metrics". -/
def twoValuesEnvelope : Envelope Int :=
  { Timestamp := 1000000000, SourceId := "", InstanceId := "",
    Tags := mkTags [("origin", "origin"), ("deployment", "deployment-name"),
                    ("job", "doppler")],
    Message := gaugeOf [("fooMetric", "counter", 5), ("barMetric", "counter", 6)] }

/-- The counter envelope of the test "processes value & counter metrics". -/
def counterEnvelope : Envelope Int :=
  { Timestamp := 2000000000, SourceId := "", InstanceId := "123",
    Tags := mkTags [("origin", "origin"), ("deployment", "deployment-name"),
                    ("job", "doppler")],
    Message := .Counter { Name := "counterName", Delta := 6, Total := 11 } }

end Processor

/-! ## The configuration (`internal/config/config.go`)

Go slices and maps that may be nil are `Option`s: `none` is nil, which
`encoding/json` writes as `null`, and `some` is a non-nil value. -/

/-- The Go struct `Config`. `uint32` fields are `Nat`, `int` fields `Int`. -/
structure Config where
  UAAURL : String
  Client : String
  ClientSecret : String
  TrafficControllerURL : String
  FirehoseSubscriptionID : String
  DataDogURL : String
  DataDogAPIKey : String
  DataDogAdditionalEndpoints : Option (AList (fun _ : String => Option (List String)))
  HTTPProxyURL : String
  HTTPSProxyURL : String
  NoProxy : Option (List String)
  CloudControllerEndpoint : String
  CloudControllerAPIBatchSize : Nat
  DataDogTimeoutSeconds : Nat
  FlushDurationSeconds : Nat
  FlushMaxBytes : Nat
  InsecureSSLSkipVerify : Bool
  MetricPrefix : String
  Deployment : String
  DeploymentFilter : String
  DisableAccessControl : Bool
  IdleTimeoutSeconds : Nat
  AppMetrics : Bool
  NumWorkers : Int
  NumCacheWorkers : Int
  GrabInterval : Int
  CustomTags : Option (List String)
  EnvironmentName : String
  WorkerTimeoutSeconds : Nat

/-- A value of Go's `interface{}` as `json.Unmarshal` produces it: nil, a
bool, a `float64` number, a string, a `[]interface{}` or a
`map[string]interface{}`. -/
inductive JSONValue (F : Type) where
  | null
  | bool (b : Bool)
  | number (x : F)
  | string (s : String)
  | array (items : List (JSONValue F))
  | object (members : List (String × JSONValue F))

namespace Config

/-- What `encoding/json` makes of a `[]string`: `null` for nil, else the
array of its strings. -/
def encodeStrings {F : Type} (l : Option (List String)) : JSONValue F :=
  match l with
  | none => .null
  | some keys => .array (keys.map fun s => .string s)

/-- What `encoding/json` makes of a `map[string][]string`: `null` for nil,
else the object of its entries. -/
def encodeEndpoints {F : Type} (m : Option (AList (fun _ : String => Option (List String)))) :
    JSONValue F :=
  match m with
  | none => .null
  | some endpoints => .object (endpoints.entries.map fun e => (e.1, encodeStrings e.2))

/-- Lines 58-66 of config.go: the `map[string]interface{}` obtained by
marshalling the config and unmarshalling the bytes back: one member per
field, under the field's name, numbers as `float64`. Neither step can fail
for this struct, so the two error returns are not represented. -/
def configAsMap {F : Type} (conv : Float64Conv F) (c : Config) : List (String × JSONValue F) :=
  [("UAAURL", .string c.UAAURL),
   ("Client", .string c.Client),
   ("ClientSecret", .string c.ClientSecret),
   ("TrafficControllerURL", .string c.TrafficControllerURL),
   ("FirehoseSubscriptionID", .string c.FirehoseSubscriptionID),
   ("DataDogURL", .string c.DataDogURL),
   ("DataDogAPIKey", .string c.DataDogAPIKey),
   ("DataDogAdditionalEndpoints", encodeEndpoints c.DataDogAdditionalEndpoints),
   ("HTTPProxyURL", .string c.HTTPProxyURL),
   ("HTTPSProxyURL", .string c.HTTPSProxyURL),
   ("NoProxy", encodeStrings c.NoProxy),
   ("CloudControllerEndpoint", .string c.CloudControllerEndpoint),
   ("CloudControllerAPIBatchSize", .number (conv.ofUInt64 c.CloudControllerAPIBatchSize)),
   ("DataDogTimeoutSeconds", .number (conv.ofUInt64 c.DataDogTimeoutSeconds)),
   ("FlushDurationSeconds", .number (conv.ofUInt64 c.FlushDurationSeconds)),
   ("FlushMaxBytes", .number (conv.ofUInt64 c.FlushMaxBytes)),
   ("InsecureSSLSkipVerify", .bool c.InsecureSSLSkipVerify),
   ("MetricPrefix", .string c.MetricPrefix),
   ("Deployment", .string c.Deployment),
   ("DeploymentFilter", .string c.DeploymentFilter),
   ("DisableAccessControl", .bool c.DisableAccessControl),
   ("IdleTimeoutSeconds", .number (conv.ofUInt64 c.IdleTimeoutSeconds)),
   ("AppMetrics", .bool c.AppMetrics),
   ("NumWorkers", .number (conv.ofInt c.NumWorkers)),
   ("NumCacheWorkers", .number (conv.ofInt c.NumCacheWorkers)),
   ("GrabInterval", .number (conv.ofInt c.GrabInterval)),
   ("CustomTags", encodeStrings c.CustomTags),
   ("EnvironmentName", .string c.EnvironmentName),
   ("WorkerTimeoutSeconds", .number (conv.ofUInt64 c.WorkerTimeoutSeconds))]

/-- The Go map read `asMap[attr]` with its `ok` flag. -/
def mapGet {F : Type} (m : List (String × JSONValue F)) (attr : String) : Option (JSONValue F) :=
  match m with
  | [] => none
  | (k, v) :: rest => if k = attr then some v else mapGet rest attr

/-- The Go statement `if _, ok := asMap[attr]; ok { asMap[attr] = v }`. -/
def setIfPresent {F : Type} (m : List (String × JSONValue F)) (attr : String)
    (v : JSONValue F) : List (String × JSONValue F) :=
  m.map fun kv => if kv.1 = attr then (kv.1, v) else kv

/-- Lines 75-78 of config.go for one value of the endpoints map: the type
assertion `v.([]interface{})`, which panics (`none`) unless `v` is an array,
and the loop that overwrites every element with the mask. -/
def maskKeyList {F : Type} (v : JSONValue F) : Option (JSONValue F) :=
  match v with
  | .array items => some (.array (items.map fun _ => .string "*****"))
  | _ => none

/-- The loop of line 74 over the values of the endpoints map; `none` when the
type assertion panics for one of them. -/
def maskMembers {F : Type} :
    List (String × JSONValue F) → Option (List (String × JSONValue F))
  | [] => some []
  | (k, v) :: rest =>
    match maskKeyList v with
    | none => none
    | some v' => (maskMembers rest).map fun rest' => (k, v') :: rest'

/-- Line 74 of config.go: the type assertion
`addKeys.(map[string]interface{})`, which panics (`none`) unless `addKeys`
is an object, and the loop over its values. -/
def maskEndpoints {F : Type} (addKeys : JSONValue F) : Option (JSONValue F) :=
  match addKeys with
  | .object members => (maskMembers members).map fun ms => .object ms
  | _ => none

/-- The Go method `Config.AsLogString`. `render` is the final
`json.Marshal(asMap)`. The result is `none` when the method panics, else its
two return values: the string, or the error of the final marshalling. -/
def AsLogString {F : Type} (render : List (String × JSONValue F) → Except String String)
    (conv : Float64Conv F) (c : Config) : Option (Except String String) :=
  let asMap := configAsMap conv c
  let asMap := ["ClientSecret", "DataDogAPIKey"].foldl
    (fun m attr => setIfPresent m attr (.string "*****")) asMap
  let masked : Option (List (String × JSONValue F)) :=
    match mapGet asMap "DataDogAdditionalEndpoints" with
    | none => some asMap
    | some .null => some asMap
    | some addKeys =>
      (maskEndpoints addKeys).map fun v => setIfPresent asMap "DataDogAdditionalEndpoints" v
  match masked with
  | none => none
  | some asMap => some (render asMap)

/-- The mask written over a secret. -/
def mask {F : Type} : JSONValue F := .string "*****"

/-- The additional endpoints as the log string shows them: `null` for a nil
map, else every endpoint with as many masks as it lists keys. -/
def maskedEndpoints {F : Type} (m : Option (AList (fun _ : String => Option (List String)))) :
    JSONValue F :=
  match m with
  | none => .null
  | some endpoints =>
    .object (endpoints.entries.map fun e =>
      (e.1, .array (List.replicate (e.2.getD []).length mask)))

/-- The endpoints of a config and how many keys each lists (`none` for a nil
list): what two configs share when they differ only in the key strings. -/
def endpointShape (m : Option (AList (fun _ : String => Option (List String)))) :
    Option (List (String × Option Nat)) :=
  m.map fun endpoints => endpoints.entries.map fun e => (e.1, e.2.map List.length)

/-- Two configs that differ only in the values of `ClientSecret`,
`DataDogAPIKey` and the key strings of `DataDogAdditionalEndpoints`: the
second is the first with other values in these three fields, and both list
the same endpoints with the same number of keys each. -/
def sameExceptSecrets (c1 c2 : Config) : Prop :=
  (∃ secret apiKey endpoints,
    c2 = { c1 with ClientSecret := secret, DataDogAPIKey := apiKey,
                   DataDogAdditionalEndpoints := endpoints }) ∧
  endpointShape c1.DataDogAdditionalEndpoints = endpointShape c2.DataDogAdditionalEndpoints

/-- The masked members of the endpoints object as a function of the shape of
the endpoints map; `none` when an endpoint has a nil key list. -/
def shapeMask {F : Type} : List (String × Option Nat) → Option (List (String × JSONValue F))
  | [] => some []
  | (_, none) :: _ => none
  | (k, some len) :: rest =>
    (shapeMask rest).map fun rest' => (k, .array (List.replicate len mask)) :: rest'

/-- The map `AsLogString` marshals at the end, given the value `v` it has
put under `DataDogAdditionalEndpoints`. -/
def maskedMap {F : Type} (conv : Float64Conv F) (c : Config) (v : JSONValue F) :
    List (String × JSONValue F) :=
  setIfPresent
    (setIfPresent (setIfPresent (configAsMap conv c) "ClientSecret" mask) "DataDogAPIKey" mask)
    "DataDogAdditionalEndpoints" v

/-- A config with empty strings, zero numbers and nil slices and maps. -/
def zeroConfig : Config :=
  { UAAURL := "", Client := "", ClientSecret := "", TrafficControllerURL := "",
    FirehoseSubscriptionID := "", DataDogURL := "", DataDogAPIKey := "",
    DataDogAdditionalEndpoints := none, HTTPProxyURL := "", HTTPSProxyURL := "",
    NoProxy := none, CloudControllerEndpoint := "", CloudControllerAPIBatchSize := 0,
    DataDogTimeoutSeconds := 0, FlushDurationSeconds := 0, FlushMaxBytes := 0,
    InsecureSSLSkipVerify := false, MetricPrefix := "", Deployment := "",
    DeploymentFilter := "", DisableAccessControl := false, IdleTimeoutSeconds := 0,
    AppMetrics := false, NumWorkers := 0, NumCacheWorkers := 0, GrabInterval := 0,
    CustomTags := none, EnvironmentName := "", WorkerTimeoutSeconds := 0 }

/-- A config as read from a file that lists one additional endpoint with two
API keys. -/
def twoKeysConfig : Config :=
  { zeroConfig with
    Client := "nozzle", ClientSecret := "s3cret", DataDogAPIKey := "0123456789abcdef",
    DataDogAdditionalEndpoints := some ((∅ : AList fun _ : String => Option (List String)).insert
      "https://app.datadoghq.eu/api/v1/series" (some ["key-one", "key-two"])) }

/-- The config `twoKeysConfig` with other secrets. -/
def otherKeysConfig : Config :=
  { twoKeysConfig with
    ClientSecret := "hunter2", DataDogAPIKey := "fedcba9876543210",
    DataDogAdditionalEndpoints := some ((∅ : AList fun _ : String => Option (List String)).insert
      "https://app.datadoghq.eu/api/v1/series" (some ["key-three", "key-four"])) }

/-- A config as read from a file that has
`"DataDogAdditionalEndpoints": {"https://app.datadoghq.eu/api/v1/series": null}`. -/
def nilKeysConfig : Config :=
  { zeroConfig with
    DataDogAdditionalEndpoints := some ((∅ : AList fun _ : String => Option (List String)).insert
      "https://app.datadoghq.eu/api/v1/series" none) }

end Config

/-! ## The configuration: `Parse` and the environment overrides

`os.Getenv` is a function `env` from names to values, the empty string for
an unset variable. A routine that can panic returns an `Option`, `none` for
the panic. -/

namespace Config

/-- The constant `defaultCloudControllerAPIBatchSize`. -/
def defaultCloudControllerAPIBatchSize : Nat := 2500

/-- The constant `defaultGrabInterval`. -/
def defaultGrabInterval : Int := 10

/-- The constant `defaultWorkers`. -/
def defaultWorkers : Int := 4

/-- The constant `defaultIdleTimeoutSeconds`. -/
def defaultIdleTimeoutSeconds : Nat := 60

/-- The constant `defaultWorkerTimeoutSeconds`. -/
def defaultWorkerTimeoutSeconds : Nat := 10

/-- Go's `strings.Split(s, ",")` on the characters of `s`, `acc` holding the
characters of the current piece in reverse. -/
def splitComma : List Char → List Char → List String
  | [], acc => [String.mk acc.reverse]
  | c :: cs, acc =>
    if c = ',' then String.mk acc.reverse :: splitComma cs []
    else splitComma cs (c :: acc)

/-- Go's `strings.Split(s, ",")`: the pieces of `s` between commas; one empty
piece for the empty string. -/
def stringsSplit (s : String) : List String := splitComma s.toList []

/-- Go's `strconv.ParseBool`. -/
def ParseBool (s : String) : Except String Bool :=
  if s = "1" ∨ s = "t" ∨ s = "T" ∨ s = "TRUE" ∨ s = "true" ∨ s = "True" then .ok true
  else if s = "0" ∨ s = "f" ∨ s = "F" ∨ s = "FALSE" ∨ s = "false" ∨ s = "False" then .ok false
  else .error "strconv.ParseBool: invalid syntax"

/-- The Go function `overrideWithEnvVar`: the value of `*value` afterwards. -/
def overrideWithEnvVar (env : String → String) (name : String) (value : String) : String :=
  let envValue := env name
  if envValue != "" then envValue else value

/-- The Go function `overrideWithEnvUint32`: the value of `*value`
afterwards, `none` for the panic on a value `strconv.Atoi` rejects. -/
def overrideWithEnvUint32 (env : String → String) (atoi : String → Except String Int)
    (name : String) (value : Nat) : Option Nat :=
  let envValue := env name
  if envValue != "" then
    match atoi envValue with
    | .error _ => none
    | .ok tmpValue => some (tmpValue % 2 ^ 32).toNat
  else some value

/-- The Go function `overrideWithEnvInt`: the value of `*value` afterwards,
`none` for the panic on a value `strconv.Atoi` rejects. -/
def overrideWithEnvInt (env : String → String) (atoi : String → Except String Int)
    (name : String) (value : Int) : Option Int :=
  let envValue := env name
  if envValue != "" then
    match atoi envValue with
    | .error _ => none
    | .ok tmpValue => some tmpValue
  else some value

/-- The Go function `overrideWithEnvBool`: the value of `*value` afterwards,
`none` for the panic on a value `strconv.ParseBool` rejects. -/
def overrideWithEnvBool (env : String → String) (name : String) (value : Bool) : Option Bool :=
  let envValue := env name
  if envValue != "" then
    match ParseBool envValue with
    | .error _ => none
    | .ok b => some b
  else some value

/-- The Go function `overrideWithEnvSliceStrings`: the value of `*value`
afterwards. The assignment is not guarded by a test of `envValue`. -/
def overrideWithEnvSliceStrings (env : String → String) (name : String)
    (_value : Option (List String)) : Option (List String) :=
  let envValue := env name
  some (stringsSplit envValue)

/-- Lines 102-128 of config.go: the environment overrides of `Parse`. Every
override reads and writes one field of its own, so the result is the config
with each of these fields replaced by its override; the overrides that can
panic are evaluated in source order, and the result is `none` when one of
them panics. -/
def applyEnvOverrides (env : String → String) (atoi : String → Except String Int)
    (config : Config) : Option Config := do
  let cloudControllerAPIBatchSize ← overrideWithEnvUint32 env atoi "NOZZLE_CLOUD_CONTROLLER_API_BATCH_SIZE" config.CloudControllerAPIBatchSize
  let dataDogTimeoutSeconds ← overrideWithEnvUint32 env atoi "NOZZLE_DATADOGTIMEOUTSECONDS" config.DataDogTimeoutSeconds
  let flushDurationSeconds ← overrideWithEnvUint32 env atoi "NOZZLE_FLUSHDURATIONSECONDS" config.FlushDurationSeconds
  let flushMaxBytes ← overrideWithEnvUint32 env atoi "NOZZLE_FLUSHMAXBYTES" config.FlushMaxBytes
  let grabInterval ← overrideWithEnvInt env atoi "NOZZLE_GRAB_INTERVAL" config.GrabInterval
  let insecureSSLSkipVerify ← overrideWithEnvBool env "NOZZLE_INSECURESSLSKIPVERIFY" config.InsecureSSLSkipVerify
  let disableAccessControl ← overrideWithEnvBool env "NOZZLE_DISABLEACCESSCONTROL" config.DisableAccessControl
  let idleTimeoutSeconds ← overrideWithEnvUint32 env atoi "NOZZLE_IDLETIMEOUTSECONDS" config.IdleTimeoutSeconds
  let workerTimeoutSeconds ← overrideWithEnvUint32 env atoi "NOZZLE_WORKERTIMEOUTSECONDS" config.WorkerTimeoutSeconds
  pure { config with
    UAAURL := overrideWithEnvVar env "NOZZLE_UAAURL" config.UAAURL,
    Client := overrideWithEnvVar env "NOZZLE_CLIENT" config.Client,
    ClientSecret := overrideWithEnvVar env "NOZZLE_CLIENT_SECRET" config.ClientSecret,
    TrafficControllerURL := overrideWithEnvVar env "NOZZLE_TRAFFICCONTROLLERURL" config.TrafficControllerURL,
    FirehoseSubscriptionID := overrideWithEnvVar env "NOZZLE_FIREHOSESUBSCRIPTIONID" config.FirehoseSubscriptionID,
    DataDogURL := overrideWithEnvVar env "NOZZLE_DATADOGURL" config.DataDogURL,
    DataDogAPIKey := overrideWithEnvVar env "NOZZLE_DATADOGAPIKEY" config.DataDogAPIKey,
    HTTPProxyURL := overrideWithEnvVar env "HTTP_PROXY" config.HTTPProxyURL,
    HTTPSProxyURL := overrideWithEnvVar env "HTTPS_PROXY" config.HTTPSProxyURL,
    CloudControllerAPIBatchSize := cloudControllerAPIBatchSize,
    DataDogTimeoutSeconds := dataDogTimeoutSeconds,
    MetricPrefix := overrideWithEnvVar env "NOZZLE_METRICPREFIX" config.MetricPrefix,
    Deployment := overrideWithEnvVar env "NOZZLE_DEPLOYMENT" config.Deployment,
    DeploymentFilter := overrideWithEnvVar env "NOZZLE_DEPLOYMENT_FILTER" config.DeploymentFilter,
    FlushDurationSeconds := flushDurationSeconds,
    FlushMaxBytes := flushMaxBytes,
    GrabInterval := grabInterval,
    InsecureSSLSkipVerify := insecureSSLSkipVerify,
    DisableAccessControl := disableAccessControl,
    IdleTimeoutSeconds := idleTimeoutSeconds,
    WorkerTimeoutSeconds := workerTimeoutSeconds,
    NoProxy := overrideWithEnvSliceStrings env "NO_PROXY" config.NoProxy,
    EnvironmentName := overrideWithEnvVar env "NOZZLE_ENVIRONMENT_NAME" config.EnvironmentName }

/-- Lines 130-158 of config.go: the defaults for unset values and the check of
the batch size. -/
def applyDefaults (config : Config) : Except String Config :=
  let config :=
    if config.MetricPrefix = "" then { config with MetricPrefix := "cloudfoundry.nozzle." }
    else config
  let config :=
    if config.GrabInterval = 0 then { config with GrabInterval := defaultGrabInterval }
    else config
  let config :=
    if config.NumWorkers = 0 then { config with NumWorkers := defaultWorkers } else config
  let config :=
    if config.NumCacheWorkers = 0 then { config with NumCacheWorkers := defaultWorkers }
    else config
  let config :=
    if config.IdleTimeoutSeconds = 0 then
      { config with IdleTimeoutSeconds := defaultIdleTimeoutSeconds }
    else config
  let config :=
    if config.WorkerTimeoutSeconds = 0 then
      { config with WorkerTimeoutSeconds := defaultWorkerTimeoutSeconds }
    else config
  if config.CloudControllerAPIBatchSize = 0 then
    .ok { config with CloudControllerAPIBatchSize := defaultCloudControllerAPIBatchSize }
  else if config.CloudControllerAPIBatchSize < 100 ∨ config.CloudControllerAPIBatchSize > 5000 then
    .error "CloudControllerAPIBatchSize must be an integer >= 100 and <= 5000"
  else .ok config

/-- The Go function `Parse`. `readFile` is `ioutil.ReadFile`, `unmarshal` is
`json.Unmarshal` into a `Config`, `atoi` is `strconv.Atoi`. The result is
`none` when an override panics, else the two return values. -/
def Parse (readFile : String → Except String Bytes) (unmarshal : Bytes → Except String Config)
    (env : String → String) (atoi : String → Except String Int) (configPath : String) :
    Option (Except String Config) :=
  match readFile configPath with
  | .error err => some (.error ("Can not read config file [" ++ configPath ++ "]: " ++ err))
  | .ok configBytes =>
    match unmarshal configBytes with
    | .error err => some (.error ("Can not parse config file " ++ configPath ++ ": " ++ err))
    | .ok config =>
      match applyEnvOverrides env atoi config with
      | none => none
      | some config =>
        match applyDefaults config with
        | .error err => some (.error err)
        | .ok config =>
          match overrideWithEnvInt env atoi "NOZZLE_NUM_WORKERS" config.NumWorkers with
          | none => none
          | some numWorkers =>
            match overrideWithEnvInt env atoi "NOZZLE_NUM_CACHE_WORKERS"
                config.NumCacheWorkers with
            | none => none
            | some numCacheWorkers =>
              some (.ok { config with NumWorkers := numWorkers,
                                      NumCacheWorkers := numCacheWorkers })

/-- A configuration file's content: `zeroConfig` with a batch size of 500
and the proxy exception `internal.example`. -/
def fileConfig : Config :=
  { zeroConfig with CloudControllerAPIBatchSize := 500, NoProxy := some ["internal.example"] }

/-- An environment in which no variable is set. -/
def emptyEnv : String → String := fun _ => ""

end Config

/-! ## Concrete caches and clients -/

/-- A record that was created at Unix second 1000 and has no fetch error. -/
def freshApp : App := newApp "guid-1" 1000000000000

/-- A control plane on which every call fails. -/
def downClient : CFClient :=
  { AppByGuid := fun _ => .error "unreachable",
    GetAppInstances := fun _ => .error "unreachable",
    Space := fun _ => .error "unreachable",
    Org := fun _ => .error "unreachable" }

/-- A cache holding `freshApp`, with a grab interval of ten minutes. -/
def freshParser : AppParser :=
  { Apps := (∅ : AppMap).insert "guid-1" freshApp, grabInterval := 10, customTags := [] }

/-- A cache whose record for `guid-1` went stale before Unix second 1200. -/
def staleParser : AppParser :=
  { Apps := (∅ : AppMap).insert "guid-1" (newApp "guid-1" 0), grabInterval := 10,
    customTags := [] }

/-- A cache whose record for `guid-1` already carries `ErrorGrabbing = true`. -/
def flaggedParser : AppParser :=
  { Apps := (∅ : AppMap).insert "guid-1" { newApp "guid-1" 0 with ErrorGrabbing := true },
    grabInterval := 10, customTags := [] }

/-- The cache `flaggedParser` after one failing `getAppData` for `guid-1`. -/
def flaggedParserAfterOne : AppParser :=
  { flaggedParser with
    Apps := (getAppData flaggedParser downClient "guid-1" 1200000000000 1200000000000).Apps }

/-- A control plane on which every call succeeds; the app it reports has
neither an explicit nor a detected buildpack and runs one instance. -/
def upClient : CFClient :=
  { AppByGuid := fun guid => .ok
      { Guid := guid, Name := "app", Buildpack := "", DetectedBuildpack := "", Command := "",
        DockerImage := "registry/image", Diego := true, SpaceGuid := "space-1",
        DiskQuota := 1024, Memory := 512 },
    GetAppInstances := fun _ =>
      .ok ((∅ : AList fun _ : String => CFAppInstance).insert "0" { State := "RUNNING" }),
    Space := fun _ => .ok { Guid := "space-1", Name := "space" },
    Org := fun _ => .ok { Guid := "org-1", Name := "org" } }

/-- The control plane `upClient` with a failing instance-list fetch. -/
def instancesDownClient : CFClient :=
  { upClient with GetAppInstances := fun _ => .error "instances unreachable" }

/-- A cache whose stale record for `guid-1` has the buildpack label
`ruby_buildpack` from an earlier refresh. -/
def rubyParser : AppParser :=
  { Apps := (∅ : AppMap).insert "guid-1" { newApp "guid-1" 0 with Buildpack := "ruby_buildpack" },
    grabInterval := 10, customTags := [] }

/-- A cache whose record for `guid-1` was created at Unix second 1000 and
flagged `ErrorGrabbing = true` by a failed fetch. -/
def flaggedNowParser : AppParser :=
  { Apps := (∅ : AppMap).insert "guid-1"
      { newApp "guid-1" 1000000000000 with ErrorGrabbing := true },
    grabInterval := 10, customTags := [] }

/-- A cache holding an unflagged record created at Unix second 1000, with a
grab interval of 153722868 minutes, the least whose nanoseconds exceed
`int64`. -/
def overflowParser : AppParser :=
  { Apps := (∅ : AppMap).insert "guid-1" (newApp "guid-1" 1000000000000),
    grabInterval := 153722868, customTags := [] }

/-! ## Theorems -/

theorem appendIf_ne_empty (tags : List String) (s tag : String) :
    appendIf tags (s != "") tag = tags ++ (if s = "" then [] else [tag]) := by
  unfold appendIf
  by_cases h : s = "" <;> simp [h]

theorem appendIf_flag (tags : List String) (b : Bool) (tag : String) :
    appendIf tags b tag = tags ++ (if b = true then [tag] else []) := by
  unfold appendIf
  cases b <;> simp

/-- C4: `generateTags` returns exactly the eleven candidate tags in source
order, each present iff its attribute is non-empty (`Diego` set for the
literal `diego`); the result is a function of those eleven attributes only,
so `Host`, `Instances`, the counts, `ErrorGrabbing`, `Tags` and `updated`
do not influence it. -/
theorem generateTags_eq_tagsOfAttributes (a : App) :
    generateTags a =
      tagsOfAttributes a.Name a.Buildpack a.Command a.Diego a.OrgName a.OrgID
        a.SpaceName a.SpaceID a.SpaceURL a.GUID a.DockerImage := by
  simp only [generateTags, tagsOfAttributes, appendIf_ne_empty]
  simp only [appendIf_flag, List.nil_append, List.append_assoc]

/-! ### Lookup in maps -/

theorem dlookup_kreplace {β : Type} (a a' : String) (b : β) (l : List (Sigma fun _ : String => β)) :
    List.dlookup a' (List.kreplace a b l) =
      if a' = a then (List.dlookup a l).map (fun _ => b) else List.dlookup a' l := by
  induction l with
  | nil => simp [List.kreplace]
  | cons x l ih =>
    obtain ⟨k, v⟩ := x
    by_cases hk : a = k
    · subst hk
      have h1 : List.kreplace a b (⟨a, v⟩ :: l) = ⟨a, b⟩ :: l := by
        unfold List.kreplace
        rw [List.lookmap_cons_some]
        simp
      rw [h1]
      by_cases h : a' = a
      · subst h
        simp [List.dlookup_cons_eq]
      · have e1 := List.dlookup_cons_ne l (⟨a, b⟩ : Sigma fun _ : String => β) h
        have e2 := List.dlookup_cons_ne l (⟨a, v⟩ : Sigma fun _ : String => β) h
        rw [e1, e2]
        simp [h]
    · have h1 : List.kreplace a b (⟨k, v⟩ :: l) = ⟨k, v⟩ :: List.kreplace a b l := by
        unfold List.kreplace
        rw [List.lookmap_cons_none]
        simp [hk]
      rw [h1]
      have e3 := List.dlookup_cons_ne l (⟨k, v⟩ : Sigma fun _ : String => β) hk
      by_cases h : a' = k
      · subst h
        have h2 : ¬ a' = a := fun e => hk e.symm
        simp [List.dlookup_cons_eq, h2]
      · have e1 := List.dlookup_cons_ne (List.kreplace a b l)
          (⟨k, v⟩ : Sigma fun _ : String => β) h
        have e2 := List.dlookup_cons_ne l (⟨k, v⟩ : Sigma fun _ : String => β) h
        rw [e1, e2, e3, ih]

theorem lookup_replace_self {β : Type} (a : String) (b : β) (s : AList fun _ : String => β) :
    (s.replace a b).lookup a = (s.lookup a).map (fun _ => b) := by
  unfold AList.replace AList.lookup
  simp [dlookup_kreplace]

theorem lookup_replace_ne {β : Type} (a a' : String) (b : β) (s : AList fun _ : String => β)
    (h : a' ≠ a) : (s.replace a b).lookup a' = s.lookup a' := by
  unfold AList.replace AList.lookup
  simp [dlookup_kreplace, h]

/-! ### Time arithmetic -/

theorem wrapInt64_of_range (x : Int) (h1 : -(2 ^ 63) ≤ x) (h2 : x < 2 ^ 63) : wrapInt64 x = x := by
  unfold wrapInt64
  omega

theorem wrapInt64_lt (x : Int) : wrapInt64 x < 2 ^ 63 := by
  unfold wrapInt64
  omega

/-- For a grab interval whose duration fits `int64` nanoseconds, `timeToGrab`
is the current Unix second minus sixty seconds per minute of the interval. -/
theorem timeToGrab_eq (now grabInterval : Int) (h0 : -153722867 ≤ grabInterval)
    (h1 : grabInterval ≤ 153722867) :
    timeToGrab now grabInterval = timeUnix now - 60 * grabInterval := by
  unfold timeToGrab negMinutes timeAdd timeUnix Minute
  rw [wrapInt64_of_range (-grabInterval) (by omega) (by omega)]
  rw [wrapInt64_of_range _ (by omega) (by omega)]
  omega

/-- For a grab interval of at most 153722867 minutes, `timeToGrab` is not
later than the current Unix second minus sixty seconds per minute of the
interval: up to that bound the `int64` product does not wrap upwards. -/
theorem timeToGrab_le (now grabInterval : Int) (h1 : grabInterval ≤ 153722867) :
    timeToGrab now grabInterval ≤ timeUnix now - 60 * grabInterval := by
  by_cases h0 : -153722867 ≤ grabInterval
  · rw [timeToGrab_eq now grabInterval h0 h1]
  · have hw := wrapInt64_lt (wrapInt64 (-grabInterval) * Minute)
    unfold timeToGrab negMinutes timeAdd timeUnix
    omega

/-! ### The refresh routine -/

/-- A record that is not flagged and whose `updated` is later than the
`timeToGrab` the code computes is returned from the cache: no control-plane
call is made and the map is unchanged. -/
theorem getAppData_fresh_hit (am : AppParser) (cf : CFClient) (guid : String)
    (now now2 : Int) (app : App)
    (hrec : am.Apps.lookup guid = some app)
    (herr : app.ErrorGrabbing = false)
    (hfresh : app.updated > timeToGrab now am.grabInterval) :
    (getAppData am cf guid now now2).ret = Except.ok app ∧
    (getAppData am cf guid now now2).calls = [] ∧
    (getAppData am cf guid now now2).Apps = am.Apps := by
  unfold getAppData
  simp [hrec, herr, hfresh]

/-- C1, counterexample: with `grabInterval = 153722868` the product
`-time.Duration(grabInterval) * time.Minute` wraps around in `int64`, so
`timeToGrab` lies in the future; the record is not flagged and its `updated`
(1000) is later than now (second 1000) minus `grabInterval` minutes, yet
`getAppData` calls the control plane and the record it returns has been
rewritten from the fetched data. -/
theorem getAppData_cache_hit_counterexample :
    ∃ app, overflowParser.Apps.lookup "guid-1" = some app ∧
      app.ErrorGrabbing = false ∧
      app.updated > timeUnix 1000500000000 - 60 * overflowParser.grabInterval ∧
      (getAppData overflowParser upClient "guid-1" 1000500000000 1000500000000).calls ≠ [] ∧
      (getAppData overflowParser upClient "guid-1" 1000500000000 1000500000000).ret
        ≠ Except.ok app :=
  ⟨_, rfl, rfl, by decide, by decide, by
    intro h
    have hname := congrArg (fun r => r.toOption.map fun a => a.Name) h
    revert hname
    decide⟩

/-- C1, amended: cache hit. For a `grabInterval` of at most 153722867 minutes
(beyond which the interval does not fit a `time.Duration`), if `Apps` holds a
record for `guid` with `ErrorGrabbing = false` and `updated` later than the
Unix second of now minus `grabInterval` minutes, `getAppData` returns that
record with no error, makes no control-plane call and leaves the map, hence
every field of the record, unchanged. -/
theorem getAppData_cache_hit (am : AppParser) (cf : CFClient) (guid : String)
    (now now2 : Int) (app : App)
    (hinterval : am.grabInterval ≤ 153722867)
    (hrec : am.Apps.lookup guid = some app)
    (herr : app.ErrorGrabbing = false)
    (hfresh : app.updated > timeUnix now - 60 * am.grabInterval) :
    (getAppData am cf guid now now2).ret = Except.ok app ∧
    (getAppData am cf guid now now2).calls = [] ∧
    (getAppData am cf guid now now2).Apps = am.Apps := by
  have hle := timeToGrab_le now am.grabInterval hinterval
  exact getAppData_fresh_hit am cf guid now now2 app hrec herr (by omega)

theorem getAppData_cache_hit_witness :
    (getAppData freshParser downClient "guid-1" 1200000000000 1200000000000).ret
        = Except.ok freshApp ∧
    (getAppData freshParser downClient "guid-1" 1200000000000 1200000000000).calls = [] ∧
    (getAppData freshParser downClient "guid-1" 1200000000000 1200000000000).Apps
        = freshParser.Apps :=
  getAppData_cache_hit freshParser downClient "guid-1" 1200000000000 1200000000000 freshApp
    (by decide) (by rfl) (by rfl) (by decide)

/-- An error returned by `refreshApp` is the error of the base fetch. -/
theorem refreshApp_error (apps : AppMap) (cf : CFClient) (guid : String) (app : App)
    (now2 : Int) (e : String) (h : (refreshApp apps cf guid app now2).ret = Except.error e) :
    cf.AppByGuid guid = Except.error e := by
  unfold refreshApp at h
  cases hf : cf.AppByGuid guid with
  | error err =>
    rw [hf] at h
    by_cases hg : app.ErrorGrabbing = true
    · simp [hg] at h
      rw [h]
    · simp [hg] at h
      rw [h]
  | ok resolvedApp =>
    rw [hf] at h
    simp at h

/-- What `refreshApp` does when the base fetch fails. -/
theorem refreshApp_of_error (apps : AppMap) (cf : CFClient) (guid : String) (app : App)
    (now2 : Int) (e : String) (h : cf.AppByGuid guid = Except.error e) :
    refreshApp apps cf guid app now2 =
      if app.ErrorGrabbing then
        { ret := .error e, Apps := apps.erase guid, calls := [Fetch.AppByGuid guid] }
      else
        { ret := .error e, Apps := apps.replace guid { app with ErrorGrabbing := true },
          calls := [Fetch.AppByGuid guid] } := by
  unfold refreshApp
  rw [h]

/-- C2: one grace cycle. When `getAppData` performs a refresh (it makes a
control-plane call) and `AppByGuid` fails with `err`, it returns `err` and no
record; a record that had `ErrorGrabbing = true` is removed from `Apps`; a
record that had `ErrorGrabbing = false` stays with only that flag changed to
`true`; on a miss the skeleton `newApp guid` stays, flagged likewise; records
of other guids are untouched. -/
theorem getAppData_fetch_failure (am : AppParser) (cf : CFClient) (guid : String)
    (now now2 : Int) (err : String)
    (hfail : cf.AppByGuid guid = Except.error err)
    (hrefresh : (getAppData am cf guid now now2).calls ≠ []) :
    (getAppData am cf guid now now2).ret = Except.error err ∧
    (∀ app, am.Apps.lookup guid = some app → app.ErrorGrabbing = true →
      (getAppData am cf guid now now2).Apps.lookup guid = none) ∧
    (∀ app, am.Apps.lookup guid = some app → app.ErrorGrabbing = false →
      (getAppData am cf guid now now2).Apps.lookup guid
        = some { app with ErrorGrabbing := true }) ∧
    (am.Apps.lookup guid = none →
      (getAppData am cf guid now now2).Apps.lookup guid
        = some { newApp guid now with ErrorGrabbing := true }) ∧
    (∀ g, g ≠ guid →
      (getAppData am cf guid now now2).Apps.lookup g = am.Apps.lookup g) := by
  unfold getAppData at hrefresh ⊢
  cases hl : am.Apps.lookup guid with
  | none =>
    rw [hl] at hrefresh
    simp only [refreshApp_of_error _ cf guid _ now2 err hfail]
    have hn : (newApp guid now).ErrorGrabbing = false := rfl
    simp only [hn]
    refine ⟨rfl, ?_, ?_, ?_, ?_⟩
    · intro app h; cases h
    · intro app h; cases h
    · intro _
      simp [lookup_replace_self, AList.lookup_insert]
    · intro g hg
      simp [lookup_replace_ne _ _ _ _ hg, AList.lookup_insert_ne hg]
  | some app =>
    rw [hl] at hrefresh
    by_cases hhit : (!app.ErrorGrabbing && decide (app.updated > timeToGrab now am.grabInterval)) = true
    · simp [hhit] at hrefresh
    · simp only [hhit, refreshApp_of_error _ cf guid _ now2 err hfail]
      by_cases hg : app.ErrorGrabbing = true
      · simp only [hg]
        refine ⟨rfl, ?_, ?_, ?_, ?_⟩
        · intro a _ _
          simp [AList.lookup_erase]
        · intro a h1 h2
          cases h1
          rw [hg] at h2
          cases h2
        · intro h; cases h
        · intro g hne
          simp [AList.lookup_erase_ne hne]
      · have hg2 : app.ErrorGrabbing = false := by simpa using hg
        simp only [hg2]
        refine ⟨rfl, ?_, ?_, ?_, ?_⟩
        · intro a h1 h2
          cases h1
          rw [hg2] at h2
          cases h2
        · intro a h1 _
          cases h1
          simp [lookup_replace_self, hl]
        · intro h; cases h
        · intro g hne
          simp [lookup_replace_ne _ _ _ _ hne]

theorem getAppData_fetch_failure_witness :
    (getAppData staleParser downClient "guid-1" 1200000000000 1200000000000).ret
        = Except.error "unreachable" ∧
    (∀ app, staleParser.Apps.lookup "guid-1" = some app → app.ErrorGrabbing = true →
      (getAppData staleParser downClient "guid-1" 1200000000000 1200000000000).Apps.lookup
        "guid-1" = none) ∧
    (∀ app, staleParser.Apps.lookup "guid-1" = some app → app.ErrorGrabbing = false →
      (getAppData staleParser downClient "guid-1" 1200000000000 1200000000000).Apps.lookup
        "guid-1" = some { app with ErrorGrabbing := true }) ∧
    (staleParser.Apps.lookup "guid-1" = none →
      (getAppData staleParser downClient "guid-1" 1200000000000 1200000000000).Apps.lookup
        "guid-1" = some { newApp "guid-1" 1200000000000 with ErrorGrabbing := true }) ∧
    (∀ g, g ≠ "guid-1" →
      (getAppData staleParser downClient "guid-1" 1200000000000 1200000000000).Apps.lookup g
        = staleParser.Apps.lookup g) :=
  getAppData_fetch_failure staleParser downClient "guid-1" 1200000000000 1200000000000
    "unreachable" rfl (by decide)

/-- An error returned by `getAppData` is the error of the base fetch. -/
theorem getAppData_error (am : AppParser) (cf : CFClient) (guid : String) (now now2 : Int)
    (e : String) (h : (getAppData am cf guid now now2).ret = Except.error e) :
    cf.AppByGuid guid = Except.error e := by
  unfold getAppData at h
  cases hl : am.Apps.lookup guid with
  | none =>
    rw [hl] at h
    exact refreshApp_error _ cf guid _ now2 e h
  | some app =>
    rw [hl] at h
    by_cases hhit : (!app.ErrorGrabbing && decide (app.updated > timeToGrab now am.grabInterval)) = true
    · simp [hhit] at h
    · simp only [hhit] at h
      exact refreshApp_error _ cf guid _ now2 e h

/-- Every run of `refreshApp` calls the control plane. -/
theorem refreshApp_calls_ne_nil (apps : AppMap) (cf : CFClient) (guid : String) (app : App)
    (now2 : Int) : (refreshApp apps cf guid app now2).calls ≠ [] := by
  unfold refreshApp
  cases cf.AppByGuid guid with
  | error err => by_cases hg : app.ErrorGrabbing = true <;> simp [hg]
  | ok resolvedApp => simp

/-- A failing `getAppData` made a control-plane call. -/
theorem getAppData_error_calls (am : AppParser) (cf : CFClient) (guid : String)
    (now now2 : Int) (e : String) (h : (getAppData am cf guid now now2).ret = Except.error e) :
    (getAppData am cf guid now now2).calls ≠ [] := by
  unfold getAppData at h ⊢
  cases hl : am.Apps.lookup guid with
  | none => exact refreshApp_calls_ne_nil _ cf guid _ now2
  | some app =>
    rw [hl] at h
    by_cases hhit : (!app.ErrorGrabbing && decide (app.updated > timeToGrab now am.grabInterval)) = true
    · simp [hhit] at h
    · simp only [hhit]
      exact refreshApp_calls_ne_nil _ cf guid _ now2

/-- The `Apps` map after a failing `getAppData`: a flagged record is erased,
an unflagged one is flagged in place, a missing one is inserted and flagged. -/
theorem getAppData_error_Apps (am : AppParser) (cf : CFClient) (guid : String)
    (now now2 : Int) (e : String) (h : (getAppData am cf guid now now2).ret = Except.error e) :
    (getAppData am cf guid now now2).Apps =
      match am.Apps.lookup guid with
      | some app =>
        if app.ErrorGrabbing then am.Apps.erase guid
        else am.Apps.replace guid { app with ErrorGrabbing := true }
      | none =>
        (am.Apps.insert guid (newApp guid now)).replace guid
          { newApp guid now with ErrorGrabbing := true } := by
  have hf := getAppData_error am cf guid now now2 e h
  unfold getAppData at h ⊢
  cases hl : am.Apps.lookup guid with
  | none =>
    simp only [refreshApp_of_error _ cf guid _ now2 e hf]
    rfl
  | some app =>
    rw [hl] at h
    by_cases hhit : (!app.ErrorGrabbing && decide (app.updated > timeToGrab now am.grabInterval)) = true
    · simp [hhit] at h
    · simp only [hhit, refreshApp_of_error _ cf guid _ now2 e hf]
      by_cases hg : app.ErrorGrabbing = true
      · simp [hg]
      · simp [hg]

/-- C3, counterexample: starting from a record already flagged
`ErrorGrabbing = true`, two consecutive `getAppData` calls both fail, yet
after the second call `Apps` holds a record for the guid (the skeleton the
second call created after the first call evicted the flagged record). -/
theorem getAppData_two_failures_counterexample :
    (getAppData flaggedParser downClient "guid-1" 1200000000000 1200000000000).ret
        = Except.error "unreachable" ∧
    (getAppData flaggedParserAfterOne downClient "guid-1" 1300000000000 1300000000000).ret
        = Except.error "unreachable" ∧
    (getAppData flaggedParserAfterOne downClient "guid-1" 1300000000000
        1300000000000).Apps.lookup "guid-1"
      = some { newApp "guid-1" 1300000000000 with ErrorGrabbing := true } := by
  refine ⟨rfl, rfl, rfl⟩

/-- C3, amended: if the guid's record is absent or has `ErrorGrabbing = false`
before the first of two consecutive `getAppData` calls that both return an
error, then after the second call `Apps` has no record for the guid and the
second call returns the error of its own base fetch. -/
theorem getAppData_two_failures (am : AppParser) (cf1 cf2 : CFClient) (guid : String)
    (t1 t1' t2 t2' : Int) (e1 e2 : String)
    (hstart : ∀ app, am.Apps.lookup guid = some app → app.ErrorGrabbing = false)
    (h1 : (getAppData am cf1 guid t1 t1').ret = Except.error e1)
    (h2 : (getAppData { am with Apps := (getAppData am cf1 guid t1 t1').Apps }
            cf2 guid t2 t2').ret = Except.error e2) :
    (getAppData { am with Apps := (getAppData am cf1 guid t1 t1').Apps }
        cf2 guid t2 t2').Apps.lookup guid = none ∧
    cf2.AppByGuid guid = Except.error e2 := by
  have hf2 := getAppData_error _ cf2 guid t2 t2' e2 h2
  refine ⟨?_, hf2⟩
  have hA1 := getAppData_error_Apps am cf1 guid t1 t1' e1 h1
  have hA2 := getAppData_error_Apps _ cf2 guid t2 t2' e2 h2
  have hflag : ∃ app, (getAppData am cf1 guid t1 t1').Apps.lookup guid = some app ∧
      app.ErrorGrabbing = true := by
    rw [hA1]
    cases hl : am.Apps.lookup guid with
    | none =>
      exact ⟨{ newApp guid t1 with ErrorGrabbing := true },
        by simp [lookup_replace_self, AList.lookup_insert], rfl⟩
    | some app =>
      have hg : app.ErrorGrabbing = false := hstart app hl
      exact ⟨{ app with ErrorGrabbing := true },
        by simp [hg, lookup_replace_self, hl], rfl⟩
  obtain ⟨app, hl2, hg2⟩ := hflag
  rw [hA2]
  simp only [hl2, hg2, if_true]
  exact AList.lookup_erase guid _

theorem getAppData_two_failures_witness :
    (getAppData { staleParser with
        Apps := (getAppData staleParser downClient "guid-1" 1200000000000 1200000000000).Apps }
        downClient "guid-1" 1300000000000 1300000000000).Apps.lookup "guid-1" = none ∧
    downClient.AppByGuid "guid-1" = Except.error "unreachable" :=
  getAppData_two_failures staleParser downClient downClient "guid-1"
    1200000000000 1200000000000 1300000000000 1300000000000 "unreachable" "unreachable"
    (by intro app h; cases h; rfl) rfl rfl

/-! ### Container-metric packages -/

/-- C5: `Parse` returns an empty package list and the error when
`getAppData` fails; when `getAppData` succeeds it returns no error and exactly
ten packages, in the order app.disk.configured, app.disk.provisioned,
app.memory.configured, app.memory.provisioned, app.instances, app.cpu.pct,
app.disk.used, app.disk.quota, app.memory.used, app.memory.quota, each with
exactly one point whose value is the `float64` of the corresponding record
field or container-metric field. -/
theorem Parse_packages {F : Type} (conv : Float64Conv F) (am : AppParser) (cf : CFClient)
    (envelope : Envelope F) (now now2 : Int) (clockApp clockContainer : Nat → Int) :
    Parse conv am cf envelope now now2 clockApp clockContainer =
      match (getAppData am cf (GetApplicationId envelope.ContainerMetric) now now2).ret with
      | .error err =>
        some { packages := [], err := some err,
               calls := (getAppData am cf (GetApplicationId envelope.ContainerMetric)
                          now now2).calls }
      | .ok app =>
        let host := if envelope.Origin != "" then envelope.Origin else app.GUID
        let m := envelope.ContainerMetric
        some { packages :=
                [ onePoint "app.disk.configured" host (clockApp 0)
                    (conv.ofInt app.TotalDiskConfigured),
                  onePoint "app.disk.provisioned" host (clockApp 1)
                    (conv.ofInt app.TotalDiskProvisioned),
                  onePoint "app.memory.configured" host (clockApp 2)
                    (conv.ofInt app.TotalMemoryConfigured),
                  onePoint "app.memory.provisioned" host (clockApp 3)
                    (conv.ofInt app.TotalMemoryProvisioned),
                  onePoint "app.instances" host (clockApp 4)
                    (conv.ofInt app.NumberOfInstances),
                  onePoint "app.cpu.pct" host (clockContainer 0) (GetCpuPercentage conv m),
                  onePoint "app.disk.used" host (clockContainer 1)
                    (conv.ofUInt64 (GetDiskBytes m)),
                  onePoint "app.disk.quota" host (clockContainer 2)
                    (conv.ofUInt64 (GetDiskBytesQuota m)),
                  onePoint "app.memory.used" host (clockContainer 3)
                    (conv.ofUInt64 (GetMemoryBytes m)),
                  onePoint "app.memory.quota" host (clockContainer 4)
                    (conv.ofUInt64 (GetMemoryBytesQuota m)) ],
               err := none,
               calls := (getAppData am cf (GetApplicationId envelope.ContainerMetric)
                          now now2).calls } := by
  unfold Parse
  simp only []
  generalize getAppData am cf (GetApplicationId envelope.ContainerMetric) now now2 = r
  rcases r with ⟨ret, apps, calls⟩
  cases ret with
  | error err => rfl
  | ok app => rfl

/-! ### The eviction sweep -/

theorem oneHourAgo_eq (now : Int) :
    timeUnix (timeAdd now (negMinutes clearCacheDuration)) = timeUnix now - 3600 := by
  have h := timeToGrab_eq now 60 (by decide) (by decide)
  unfold timeToGrab at h
  unfold clearCacheDuration
  rw [h]
  norm_num

theorem foldl_sweepStep_fst (marshal : App → Except String Bytes) (T : Int)
    (l : List (Sigma fun _ : String => App)) (acc : List String × AList (fun _ : String => Bytes)) :
    (l.foldl (fun r e => sweepStep marshal T r e.1 e.2) acc).1 =
      acc.1 ++ (l.filter fun e => decide (e.2.updated < T)).map (fun e => e.1) := by
  induction l generalizing acc with
  | nil => simp
  | cons x l ih =>
    rw [List.foldl_cons, ih]
    by_cases h : x.2.updated < T
    · simp [sweepStep, h, List.filter_cons]
    · simp [sweepStep, h, List.filter_cons]

theorem foldl_sweepStep_snd (marshal : App → Except String Bytes) (T : Int)
    (l : List (Sigma fun _ : String => App)) (nd : l.NodupKeys)
    (acc : List String × AList (fun _ : String => Bytes)) (g : String) :
    (l.foldl (fun r e => sweepStep marshal T r e.1 e.2) acc).2.lookup g =
      match l.dlookup g with
      | some a => if a.updated < T then acc.2.lookup g else some (marshalled marshal a)
      | none => acc.2.lookup g := by
  induction l generalizing acc with
  | nil => simp
  | cons x l ih =>
    obtain ⟨k, a⟩ := x
    rw [List.nodupKeys_cons] at nd
    rw [List.foldl_cons, ih nd.2]
    by_cases hg : g = k
    · subst hg
      have hnone : l.dlookup g = none := List.dlookup_eq_none.mpr nd.1
      rw [hnone, List.dlookup_cons_eq]
      by_cases h : a.updated < T
      · simp [sweepStep, h]
      · simp [sweepStep, h, AList.lookup_insert]
    · have e1 := List.dlookup_cons_ne l (⟨k, a⟩ : Sigma fun _ : String => App) hg
      rw [e1]
      have e2 : (sweepStep marshal T acc k a).2.lookup g = acc.2.lookup g := by
        by_cases h : a.updated < T
        · simp [sweepStep, h]
        · simp [sweepStep, h, AList.lookup_insert_ne hg]
      simp only [e2]

theorem lookup_foldl_erase {β : Type} (l : List String) (m : AList fun _ : String => β)
    (g : String) :
    (l.foldl (fun m guid => m.erase guid) m).lookup g = if g ∈ l then none else m.lookup g := by
  induction l generalizing m with
  | nil => simp
  | cons x l ih =>
    rw [List.foldl_cons, ih]
    by_cases h : g = x
    · subst h
      simp [AList.lookup_erase]
    · by_cases h2 : g ∈ l
      · simp [h2]
      · simp [h, h2, AList.lookup_erase_ne h]

theorem sweepApps_toRemove (marshal : App → Except String Bytes) (apps : AppMap) (now : Int)
    (g : String) :
    g ∈ (sweepApps marshal apps now).toRemove ↔
      ∃ a, apps.lookup g = some a ∧ a.updated < timeUnix now - 3600 := by
  unfold sweepApps
  simp only [AList.foldl, oneHourAgo_eq, foldl_sweepStep_fst, List.nil_append, List.mem_map,
    List.mem_filter, decide_eq_true_eq]
  constructor
  · rintro ⟨⟨k, a⟩, ⟨hmem, hst⟩, rfl⟩
    exact ⟨a, AList.mem_lookup_iff.mpr hmem, hst⟩
  · rintro ⟨a, hl, hst⟩
    exact ⟨⟨g, a⟩, ⟨AList.mem_lookup_iff.mp hl, hst⟩, rfl⟩

theorem sweepApps_updatedApps (marshal : App → Except String Bytes) (apps : AppMap) (now : Int)
    (g : String) :
    (sweepApps marshal apps now).updatedApps.lookup g =
      match apps.lookup g with
      | some a => if a.updated < timeUnix now - 3600 then none else some (marshalled marshal a)
      | none => none := by
  unfold sweepApps
  simp only [AList.foldl, oneHourAgo_eq]
  rw [foldl_sweepStep_snd marshal _ apps.entries apps.nodupKeys]
  simp only [AList.lookup, AList.lookup_empty]
  rfl

theorem sweepApps_Apps (marshal : App → Except String Bytes) (apps : AppMap) (now : Int)
    (g : String) :
    (sweepApps marshal apps now).Apps.lookup g =
      (apps.lookup g).filter (fun a => !decide (a.updated < timeUnix now - 3600)) := by
  have hrem := sweepApps_toRemove marshal apps now g
  have hA : (sweepApps marshal apps now).Apps
      = (sweepApps marshal apps now).toRemove.foldl (fun m guid => m.erase guid) apps := rfl
  rw [hA, lookup_foldl_erase]
  cases hl : apps.lookup g with
  | none =>
    by_cases h : g ∈ (sweepApps marshal apps now).toRemove <;> simp [h, Option.filter]
  | some a =>
    rw [hl] at hrem
    by_cases hst : a.updated < timeUnix now - 3600
    · have : g ∈ (sweepApps marshal apps now).toRemove := hrem.mpr ⟨a, rfl, hst⟩
      simp [this, Option.filter, hst]
    · have : g ∉ (sweepApps marshal apps now).toRemove := by
        intro hin
        obtain ⟨a', ha', hst'⟩ := hrem.mp hin
        cases ha'
        exact hst hst'
      simp [this, Option.filter, hst]

/-- C8: one tick of `updateCacheLoop` at clock `now`. Afterwards `Apps` holds
exactly the records whose `updated` is not earlier than `now` minus 60
minutes (in Unix seconds), each unchanged; the batch, once its bucket is
open, deletes exactly the guids of the removed records and puts exactly the
guids of the kept ones with their marshalled bytes; every guid of the map as
it was is deleted or put, and none is both. -/
theorem updateCacheTick_partition (marshal : App → Except String Bytes)
    (createBucket : Except String Unit) (am : AppParser) (now : Int) :
    (∀ g, (updateCacheTick marshal createBucket am now).1.Apps.lookup g =
      (am.Apps.lookup g).filter (fun a => !decide (a.updated < timeUnix now - 3600))) ∧
    ∃ ops, (updateCacheTick marshal (Except.ok ()) am now).2 = Except.ok ops ∧
      (∀ g, BoltOp.Delete g ∈ ops ↔
        ∃ a, am.Apps.lookup g = some a ∧ a.updated < timeUnix now - 3600) ∧
      (∀ g v, BoltOp.Put g v ∈ ops ↔
        ∃ a, am.Apps.lookup g = some a ∧ ¬ a.updated < timeUnix now - 3600 ∧
          v = marshalled marshal a) ∧
      (∀ g, g ∈ am.Apps ↔ (BoltOp.Delete g ∈ ops ∨ ∃ v, BoltOp.Put g v ∈ ops)) ∧
      (∀ g v, ¬ (BoltOp.Delete g ∈ ops ∧ BoltOp.Put g v ∈ ops)) := by
  have hdel : ∀ g, BoltOp.Delete g ∈
      ((sweepApps marshal am.Apps now).toRemove.map BoltOp.Delete ++
        (sweepApps marshal am.Apps now).updatedApps.entries.map fun e => BoltOp.Put e.1 e.2) ↔
      ∃ a, am.Apps.lookup g = some a ∧ a.updated < timeUnix now - 3600 := by
    intro g
    rw [← sweepApps_toRemove marshal am.Apps now g]
    simp
  have hput : ∀ g v, BoltOp.Put g v ∈
      ((sweepApps marshal am.Apps now).toRemove.map BoltOp.Delete ++
        (sweepApps marshal am.Apps now).updatedApps.entries.map fun e => BoltOp.Put e.1 e.2) ↔
      ∃ a, am.Apps.lookup g = some a ∧ ¬ a.updated < timeUnix now - 3600 ∧
        v = marshalled marshal a := by
    intro g v
    have hmem : BoltOp.Put g v ∈
        ((sweepApps marshal am.Apps now).toRemove.map BoltOp.Delete ++
          (sweepApps marshal am.Apps now).updatedApps.entries.map fun e => BoltOp.Put e.1 e.2) ↔
        (sweepApps marshal am.Apps now).updatedApps.lookup g = some v := by
      rw [← Option.mem_def, AList.mem_lookup_iff]
      simp only [List.mem_append, List.mem_map, reduceCtorEq, and_false, exists_false, false_or,
        BoltOp.Put.injEq]
      constructor
      · rintro ⟨⟨k, w⟩, hin, rfl, rfl⟩
        exact hin
      · intro hin
        exact ⟨⟨g, v⟩, hin, rfl, rfl⟩
    rw [hmem, sweepApps_updatedApps]
    cases hl : am.Apps.lookup g with
    | none => simp
    | some a =>
      by_cases hst : a.updated < timeUnix now - 3600
      · simp only [hst, if_true]
        constructor
        · intro h; cases h
        · rintro ⟨a', ha', hst', _⟩
          cases ha'
          exact absurd hst hst'
      · simp only [hst, if_false]
        constructor
        · intro h
          cases h
          exact ⟨a, rfl, hst, rfl⟩
        · rintro ⟨a', ha', _, hv⟩
          cases ha'
          rw [hv]
  refine ⟨fun g => sweepApps_Apps marshal am.Apps now g, _, rfl, hdel, hput, ?_, ?_⟩
  · intro g
    rw [hdel g]
    constructor
    · intro hin
      obtain ⟨a, ha⟩ := Option.isSome_iff_exists.mp (AList.lookup_isSome.mpr hin)
      by_cases hst : a.updated < timeUnix now - 3600
      · exact Or.inl ⟨a, ha, hst⟩
      · exact Or.inr ⟨marshalled marshal a, (hput g _).mpr ⟨a, ha, hst, rfl⟩⟩
    · rintro (⟨a, ha, _⟩ | ⟨v, hv⟩)
      · exact AList.lookup_isSome.mp (by simp [ha])
      · obtain ⟨a, ha, _⟩ := (hput g v).mp hv
        exact AList.lookup_isSome.mp (by simp [ha])
  · rintro g v ⟨h1, h2⟩
    obtain ⟨a, ha, hst⟩ := (hdel g).mp h1
    obtain ⟨a', ha', hst', _⟩ := (hput g v).mp h2
    rw [ha] at ha'
    cases ha'
    exact hst' hst

/-! ### Start-up -/

/-- The `ForEach` loop of `reloadCache` never stores a record, and reports an
error as soon as the bucket holds an entry. -/
theorem reloadEntries_eq (decode : Bytes → Except String App) (apps : AppMap)
    (entries : List (String × Bytes)) :
    (reloadEntries decode apps entries).1 = apps ∧
    (entries ≠ [] →
      (reloadEntries decode apps entries).2 = some "json: Unmarshal(nil *parser.App)") := by
  cases entries with
  | nil => exact ⟨rfl, fun h => absurd rfl h⟩
  | cons e rest =>
    obtain ⟨k, v⟩ := e
    exact ⟨rfl, fun _ => rfl⟩

/-- C9 (the code at the failing input): for a store whose bucket holds an
entry for `guid` — whatever its value, also one that `decode` turns into a
record — `NewAppParser` returns a parser whose `Apps` map is empty, so it has
no record for `guid`: `reloadCache` hands a nil `*App` to `json.Unmarshal`,
which fails on the first entry. -/
theorem NewAppParser_drops_stored_records (decode : Bytes → Except String App)
    (cf : CFClient) (grabInterval : Int) (customTags : List String) (environment : String)
    (guid : String) (v : Bytes) (rest : List (String × Bytes)) :
    ∃ am, NewAppParser decode (some cf) grabInterval customTags
            { bucket := .ok (some ((guid, v) :: rest)) } environment = Except.ok am ∧
      am.Apps = ∅ ∧ am.Apps.lookup guid = none := by
  refine ⟨_, rfl, rfl, rfl⟩

/-- C10 (the code at the failing input): `reloadCache` fails when the bucket
cannot be created, when it is nil and when it holds an entry, and in each of
these cases `NewAppParser`, given a client, still returns a parser and no
error. -/
theorem NewAppParser_ignores_reloadCache_error (decode : Bytes → Except String App)
    (cf : CFClient) (grabInterval : Int) (customTags : List String) (environment : String)
    (am0 : AppParser) (err : String) (e : String × Bytes) (rest : List (String × Bytes)) :
    ((reloadCache decode { bucket := .error err } am0).2 = some ("create bucket: " ++ err) ∧
      ∃ am, NewAppParser decode (some cf) grabInterval customTags
              { bucket := .error err } environment = Except.ok am) ∧
    ((reloadCache decode { bucket := .ok none } am0).2 = some "bucket not created" ∧
      ∃ am, NewAppParser decode (some cf) grabInterval customTags
              { bucket := .ok none } environment = Except.ok am) ∧
    ((reloadCache decode { bucket := .ok (some (e :: rest)) } am0).2
        = some "json: Unmarshal(nil *parser.App)" ∧
      ∃ am, NewAppParser decode (some cf) grabInterval customTags
              { bucket := .ok (some (e :: rest)) } environment = Except.ok am) := by
  refine ⟨⟨rfl, _, rfl⟩, ⟨rfl, _, rfl⟩, ⟨?_, _, rfl⟩⟩
  obtain ⟨k, v⟩ := e
  rfl

/-! ### The envelope processor -/

namespace Processor

set_option maxRecDepth 100000 in
/-- The names and point values the model emits for the envelopes of the tests
"extracts multiple values", "adds a new alias" and "processes value & counter
metrics" are those the tests expect. -/
theorem ProcessMetric_names_of_tests :
    (ProcessMetric wholeConv (fun s => s) "" [] twoValuesEnvelope).map
        (fun p => (p.Name, p.Points)) =
      [("fooMetric", [{ Timestamp := 1, Value := 5 }]),
       ("origin.fooMetric", [{ Timestamp := 1, Value := 5 }]),
       ("barMetric", [{ Timestamp := 1, Value := 6 }]),
       ("origin.barMetric", [{ Timestamp := 1, Value := 6 }])] ∧
    (ProcessMetric wholeConv (fun s => s) "" [] aliasEnvelope).map (fun p => p.Name) =
      ["bosh-hm-forwarder.foo", "origin.bosh-hm-forwarder.foo", "bosh.healthmonitor.foo"] ∧
    (ProcessMetric wholeConv (fun s => s) "" [] counterEnvelope).map
        (fun p => (p.Name, p.Points)) =
      [("counterName", [{ Timestamp := 2, Value := 11 }]),
       ("origin.counterName", [{ Timestamp := 2, Value := 11 }])] := by
  decide

theorem aliasName_append (suffix : String) :
    aliasName (legacyPrefix ++ suffix) = some (aliasPrefix ++ suffix) := by
  unfold aliasName
  have h : (legacyPrefix ++ suffix).toList = legacyPrefix.toList ++ suffix.toList :=
    String.data_append _ _
  have hp : legacyPrefix.toList.isPrefixOf (legacyPrefix.toList ++ suffix.toList) = true :=
    List.isPrefixOf_iff_prefix.mpr (List.prefix_append _ _)
  have hd : List.drop legacyPrefix.length (legacyPrefix.toList ++ suffix.toList)
      = suffix.toList := List.drop_left' rfl
  rw [h, if_pos hp, hd]
  rfl

theorem aliasName_eq_some_iff (v a : String) :
    aliasName v = some a ↔ ∃ suffix, v = legacyPrefix ++ suffix ∧ a = aliasPrefix ++ suffix := by
  constructor
  · intro h
    unfold aliasName at h
    by_cases hp : legacyPrefix.toList.isPrefixOf v.toList = true
    · rw [if_pos hp] at h
      obtain ⟨t, ht⟩ := List.isPrefixOf_iff_prefix.mp hp
      have hv : v = legacyPrefix ++ String.mk t := by
        apply String.ext
        rw [String.data_append]
        exact ht.symm
      refine ⟨String.mk t, hv, ?_⟩
      have hd : List.drop legacyPrefix.length v.toList = t := by
        rw [← ht]
        exact List.drop_left' rfl
      rw [hd] at h
      exact (Option.some.inj h).symm
    · rw [if_neg hp] at h
      cases h
  · rintro ⟨suffix, rfl, rfl⟩
    exact aliasName_append suffix

theorem mem_metricNames (O v n : String) :
    n ∈ metricNames (some O) v ↔ n = v ∨ n = O ++ "." ++ v ∨ aliasName v = some n := by
  unfold metricNames
  cases h : aliasName v with
  | none => simp
  | some a => simp [eq_comm]

theorem length_metricNames (O v : String) :
    (metricNames (some O) v).length =
      2 + if legacyPrefix.toList.isPrefixOf v.toList = true then 1 else 0 := by
  unfold metricNames aliasName
  by_cases hp : legacyPrefix.toList.isPrefixOf v.toList = true
  · rw [if_pos hp, if_pos hp]
    rfl
  · rw [if_neg hp, if_neg hp]
    rfl

theorem length_flatMap_packagesFor {F : Type} (normalizeJob : String → String)
    (environment : String) (customTags : List String)
    (e : Envelope F) (O : String) (horigin : e.Tags.lookup "origin" = some O)
    (l : List (Sigma fun _ : String => GaugeValue F)) :
    (l.flatMap fun kv =>
        packagesFor normalizeJob environment customTags e kv.1 kv.2.Value).length =
      2 * l.length +
        (l.filter fun kv => legacyPrefix.toList.isPrefixOf kv.1.toList).length := by
  induction l with
  | nil => simp
  | cons x l ih =>
    rw [List.flatMap_cons, List.length_append, ih]
    have hx : (packagesFor normalizeJob environment customTags e x.1 x.2.Value).length =
        2 + if legacyPrefix.toList.isPrefixOf x.1.toList = true then 1 else 0 := by
      unfold packagesFor
      rw [List.length_map, horigin, length_metricNames]
    rw [hx]
    by_cases hp : legacyPrefix.toList.isPrefixOf x.1.toList = true
    · simp only [List.filter_cons, hp, if_true, List.length_cons]
      omega
    · have hf : legacyPrefix.toList.isPrefixOf x.1.toList = false := Bool.eq_false_iff.mpr hp
      simp only [List.filter_cons, hf, if_false, List.length_cons, Bool.false_eq_true]
      omega

/-- C6: for every gauge envelope with origin tag `O` and `N` named values,
the processor emits `2N` packages plus one per value name that begins with
`bosh-hm-forwarder.`, hence exactly `2N` when no name does and `2N+1` when
exactly one does; for each value name `v` the packages named `v`, `O.v` and,
when `v = bosh-hm-forwarder.<suffix>`, `bosh.healthmonitor.<suffix>` are
emitted, no package has another name, and every package has exactly one
point, which carries the value of its `v`. -/
theorem ProcessMetric_gauge {F : Type} (conv : Float64Conv F)
    (normalizeJob : String → String) (environment : String)
    (customTags : List String) (e : Envelope F)
    (metrics : AList (fun _ : String => GaugeValue F)) (O : String)
    (hmsg : e.Message = Message.Gauge metrics)
    (horigin : e.Tags.lookup "origin" = some O) :
    (ProcessMetric conv normalizeJob environment customTags e).length =
      2 * metrics.entries.length +
        (metrics.entries.filter fun kv => legacyPrefix.toList.isPrefixOf kv.1.toList).length ∧
    ((metrics.entries.filter fun kv => legacyPrefix.toList.isPrefixOf kv.1.toList).length = 0 →
      (ProcessMetric conv normalizeJob environment customTags e).length
        = 2 * metrics.entries.length) ∧
    ((metrics.entries.filter fun kv => legacyPrefix.toList.isPrefixOf kv.1.toList).length = 1 →
      (ProcessMetric conv normalizeJob environment customTags e).length
        = 2 * metrics.entries.length + 1) ∧
    (∀ v gv n, metrics.lookup v = some gv →
      (n = v ∨ n = O ++ "." ++ v ∨
        ∃ suffix, v = "bosh-hm-forwarder." ++ suffix ∧ n = "bosh.healthmonitor." ++ suffix) →
      { Name := n, Tags := deriveTags normalizeJob environment customTags e,
        Points := [{ Timestamp := timeUnix e.Timestamp, Value := gv.Value }] }
        ∈ ProcessMetric conv normalizeJob environment customTags e) ∧
    (∀ p ∈ ProcessMetric conv normalizeJob environment customTags e,
      ∃ v gv, metrics.lookup v = some gv ∧
        p.Points = [{ Timestamp := timeUnix e.Timestamp, Value := gv.Value }] ∧
        (p.Name = v ∨ p.Name = O ++ "." ++ v ∨
          ∃ suffix, v = "bosh-hm-forwarder." ++ suffix ∧
            p.Name = "bosh.healthmonitor." ++ suffix)) := by
  have hP : ProcessMetric conv normalizeJob environment customTags e =
      metrics.entries.flatMap fun kv =>
        packagesFor normalizeJob environment customTags e kv.1 kv.2.Value := by
    unfold ProcessMetric
    rw [hmsg]
  have hlen := length_flatMap_packagesFor normalizeJob environment customTags e O horigin
    metrics.entries
  rw [hP]
  refine ⟨hlen, ?_, ?_, ?_, ?_⟩
  · intro h0
    rw [hlen, h0]
    rfl
  · intro h1
    rw [hlen, h1]
  · intro v gv n hl hn
    rw [List.mem_flatMap]
    refine ⟨⟨v, gv⟩, AList.mem_lookup_iff.mp hl, ?_⟩
    unfold packagesFor
    rw [List.mem_map, horigin]
    refine ⟨n, ?_, rfl⟩
    rw [mem_metricNames, aliasName_eq_some_iff]
    exact hn
  · intro p hp
    rw [List.mem_flatMap] at hp
    obtain ⟨⟨v, gv⟩, hin, hp⟩ := hp
    unfold packagesFor at hp
    rw [List.mem_map, horigin] at hp
    obtain ⟨n, hn, rfl⟩ := hp
    rw [mem_metricNames, aliasName_eq_some_iff] at hn
    exact ⟨v, gv, AList.mem_lookup_iff.mpr hin, rfl, hn⟩

set_option maxRecDepth 100000 in
theorem ProcessMetric_gauge_witness :
    (ProcessMetric wholeConv (fun s => s) "" [] aliasEnvelope).length = 3 ∧
    (ProcessMetric wholeConv (fun s => s) "" [] aliasEnvelope).map (fun p => p.Name) =
      ["bosh-hm-forwarder.foo", "origin.bosh-hm-forwarder.foo", "bosh.healthmonitor.foo"] :=
  ⟨(ProcessMetric_gauge wholeConv (fun s => s) "" [] aliasEnvelope
      ((∅ : AList fun _ : String => GaugeValue Int).insert "bosh-hm-forwarder.foo"
        { Unit := "counter", Value := 5 })
      "origin" rfl (by decide)).2.2.1 (by decide),
   by decide⟩

theorem mem_deriveTags {F : Type} (normalizeJob : String → String) (environment : String)
    (customTags : List String) (e : Envelope F) (t : String) :
    t ∈ deriveTags normalizeJob environment customTags e ↔
      t ∈ rawTags normalizeJob environment customTags e := by
  unfold deriveTags
  rw [(List.perm_insertionSort _ _).mem_iff, List.mem_dedup]

theorem mem_entries_erase {β : Type} (a k : String) (v : β) (m : AList fun _ : String => β) :
    (⟨k, v⟩ : Sigma fun _ : String => β) ∈ (m.erase a).entries ↔
      k ≠ a ∧ (⟨k, v⟩ : Sigma fun _ : String => β) ∈ m.entries := by
  rw [← AList.mem_lookup_iff, ← AList.mem_lookup_iff]
  by_cases h : k = a
  · subst h
    simp [AList.lookup_erase]
  · simp [AList.lookup_erase_ne h, h]

theorem tagsOfEntry_deployment (normalizeJob : String → String) (environment D : String)
    (t : String) :
    t ∈ tagsOfEntry normalizeJob environment "deployment" D ↔
      (t = "deployment:" ++ D ∨
        (environment ≠ "" ∧
          (t = "deployment:" ++ D ++ "_" ++ environment ∨ t = "env:" ++ environment))) := by
  have h1 : ("deployment" : String) ≠ "origin" := by decide
  have h2 : ("deployment" : String) ≠ "job" := by decide
  have h3 : ("deployment" : String) ++ ":" ++ D = "deployment:" ++ D := rfl
  unfold tagsOfEntry
  rw [if_neg h1, if_neg h2, if_pos rfl, h3]
  by_cases he : environment = ""
  · simp [he]
  · simp [he]

set_option maxRecDepth 100000 in
/-- C7, counterexample: no environment name is configured and the envelope's
tags carry `deployment = cf`. With an envelope tag `env = staging`, which is
copied verbatim, the derived tag list has the env tag `env:staging`; with the
custom tag `deployment:blue` it has a second deployment tag. -/
theorem deriveTags_deployment_counterexample :
    envTagEnvelope.Tags.lookup "deployment" = some "cf" ∧
    "env:staging" ∈ deriveTags (fun s => s) "" [] envTagEnvelope ∧
    "deployment:blue" ∈ deriveTags (fun s => s) "" ["deployment:blue"] envTagEnvelope ∧
    "deployment:blue" ≠ "deployment:cf" := by
  decide

/-- C7, amended: for every envelope whose tags carry `deployment = D`, a tag
is in the derived tag list exactly when it is one of the tags of the
deployment entry — `deployment:D` and, only when an environment name `E` is
configured, `deployment:D_E` and `env:E` — or a tag derived from the other
envelope tags, the instance id and the custom tags. -/
theorem deriveTags_deployment {F : Type} (normalizeJob : String → String)
    (environment : String) (customTags : List String)
    (e : Envelope F) (D : String) (h : e.Tags.lookup "deployment" = some D) (t : String) :
    t ∈ deriveTags normalizeJob environment customTags e ↔
      (t = "deployment:" ++ D ∨
        (environment ≠ "" ∧
          (t = "deployment:" ++ D ++ "_" ++ environment ∨ t = "env:" ++ environment))) ∨
      t ∈ rawTags normalizeJob environment customTags
            { e with Tags := e.Tags.erase "deployment" } := by
  rw [mem_deriveTags, ← tagsOfEntry_deployment normalizeJob]
  unfold rawTags
  simp only [List.mem_append, List.mem_flatMap]
  have hD : (⟨"deployment", D⟩ : Sigma fun _ : String => String) ∈ e.Tags.entries :=
    AList.mem_lookup_iff.mp h
  constructor
  · rintro ((⟨⟨k, v⟩, hin, ht⟩ | hi) | hc)
    · by_cases hk : k = "deployment"
      · subst hk
        have hv : v = D := by
          have := AList.mem_lookup_iff.mpr hin
          rw [h] at this
          exact (Option.some.inj this).symm
        subst hv
        exact Or.inl ht
      · exact Or.inr (Or.inl (Or.inl
          ⟨⟨k, v⟩, (mem_entries_erase _ _ _ _).mpr ⟨hk, hin⟩, ht⟩))
    · exact Or.inr (Or.inl (Or.inr hi))
    · exact Or.inr (Or.inr hc)
  · rintro (ht | ((⟨⟨k, v⟩, hin, ht⟩ | hi) | hc))
    · exact Or.inl (Or.inl ⟨⟨"deployment", D⟩, hD, ht⟩)
    · exact Or.inl (Or.inl
        ⟨⟨k, v⟩, ((mem_entries_erase _ _ _ _).mp hin).2, ht⟩)
    · exact Or.inl (Or.inr hi)
    · exact Or.inr hc

theorem deriveTags_deployment_witness :
    aliasEnvelope.Tags.lookup "deployment" = some "deployment-name" ∧
    "deployment:deployment-name_env_name"
      ∈ deriveTags (fun s => s) "env_name" [] aliasEnvelope :=
  ⟨by decide,
   (deriveTags_deployment (fun s => s) "env_name" [] aliasEnvelope
    "deployment-name" (by decide) "deployment:deployment-name_env_name").mpr
    (Or.inl (Or.inr ⟨by decide, Or.inl (by decide)⟩))⟩

set_option maxRecDepth 100000 in
/-- The derived tags of the first envelope of the test "adds tags" under the
rules of the specification, with the job normalised as the test expects and
no environment name. The test expects two more tags, `deployment:deployment-name`
and `source_id:some.source`, which the rules of the specification do not
give. -/
theorem deriveTags_addsTagsEnvelope :
    deriveTags (fun _ => "doppler") "" [] addsTagsEnvelope =
      ["deployment:deployment-name-aaaaaaaaaaaaaaaaaaaa",
       "ip:10.0.1.2",
       "job:doppler",
       "job:doppler-partition-aaaaaaaaaaaaaaaaaaaa",
       "name:test-origin",
       "origin:test-origin",
       "protocol:http",
       "request_id:a1f5-deadbeef"] := by
  decide

end Processor

/-! ### The refresh routine when the base fetch succeeds -/

/-- What `refreshApp` does when the base fetch succeeds. -/
theorem refreshApp_of_ok (apps : AppMap) (cf : CFClient) (guid : String) (app : App)
    (now2 : Int) (resolvedApp : CFApp) (h : cf.AppByGuid guid = Except.ok resolvedApp) :
    refreshApp apps cf guid app now2 =
      { ret := .ok (applyResolved cf guid app resolvedApp now2).1,
        Apps := apps.replace guid (applyResolved cf guid app resolvedApp now2).1,
        calls := Fetch.AppByGuid guid :: (applyResolved cf guid app resolvedApp now2).2 } := by
  unfold refreshApp
  rw [h]

/-- A refresh whose base fetch succeeds returns, and stores under the guid,
the record `applyResolved` computes from the record that was cached (or from
the new skeleton on a miss). -/
theorem getAppData_refresh_ok (am : AppParser) (cf : CFClient) (guid : String)
    (now now2 : Int) (resolvedApp : CFApp)
    (hbase : cf.AppByGuid guid = Except.ok resolvedApp)
    (hrefresh : (getAppData am cf guid now now2).calls ≠ []) :
    (getAppData am cf guid now now2).ret =
      Except.ok (applyResolved cf guid ((am.Apps.lookup guid).getD (newApp guid now))
        resolvedApp now2).1 ∧
    (getAppData am cf guid now now2).Apps.lookup guid =
      some (applyResolved cf guid ((am.Apps.lookup guid).getD (newApp guid now))
        resolvedApp now2).1 ∧
    (getAppData am cf guid now now2).calls =
      Fetch.AppByGuid guid ::
        (applyResolved cf guid ((am.Apps.lookup guid).getD (newApp guid now))
          resolvedApp now2).2 := by
  unfold getAppData at hrefresh ⊢
  cases hl : am.Apps.lookup guid with
  | none =>
    simp [refreshApp_of_ok _ cf guid _ now2 resolvedApp hbase, lookup_replace_self,
      AList.lookup_insert]
  | some app =>
    rw [hl] at hrefresh
    by_cases hhit : (!app.ErrorGrabbing && decide (app.updated > timeToGrab now am.grabInterval)) = true
    · simp [hhit] at hrefresh
    · simp [hhit, refreshApp_of_ok _ cf guid _ now2 resolvedApp hbase, lookup_replace_self, hl]

/-- After `applyResolved` the record's `updated` is the clock at the call. -/
theorem applyResolved_updated (cf : CFClient) (guid : String) (app : App)
    (resolvedApp : CFApp) (now2 : Int) :
    (applyResolved cf guid app resolvedApp now2).1.updated = timeUnix now2 := by
  unfold applyResolved
  by_cases hb : (resolvedApp.Buildpack != "") = true <;>
  by_cases hd : (resolvedApp.DetectedBuildpack != "") = true <;>
  cases hi : cf.GetAppInstances guid <;>
  cases hs : cf.Space resolvedApp <;>
  simp only [hb, hd, if_true, if_false] <;>
  first | rfl | (split <;> rfl)

/-- After `applyResolved` the record's `Buildpack` is the fetched explicit
buildpack if non-empty, else the fetched detected buildpack if non-empty,
else the value the record had before. -/
theorem applyResolved_Buildpack (cf : CFClient) (guid : String) (app : App)
    (resolvedApp : CFApp) (now2 : Int) :
    (applyResolved cf guid app resolvedApp now2).1.Buildpack =
      if resolvedApp.Buildpack != "" then resolvedApp.Buildpack
      else if resolvedApp.DetectedBuildpack != "" then resolvedApp.DetectedBuildpack
      else app.Buildpack := by
  unfold applyResolved
  by_cases hb : (resolvedApp.Buildpack != "") = true <;>
  by_cases hd : (resolvedApp.DetectedBuildpack != "") = true <;>
  cases hi : cf.GetAppInstances guid <;>
  cases hs : cf.Space resolvedApp <;>
  simp only [hb, hd, if_true, if_false] <;>
  first | rfl | (split <;> rfl)

/-- With a failing instance-list fetch `applyResolved` keeps the instance map
and the instance count of the record, computes the provisioned totals from
that count, and goes on to the space fetch. -/
theorem applyResolved_instances_error (cf : CFClient) (guid : String) (app : App)
    (resolvedApp : CFApp) (now2 : Int) (err : String)
    (hinst : cf.GetAppInstances guid = Except.error err) :
    (applyResolved cf guid app resolvedApp now2).1.Instances = app.Instances ∧
    (applyResolved cf guid app resolvedApp now2).1.NumberOfInstances = app.NumberOfInstances ∧
    (applyResolved cf guid app resolvedApp now2).1.TotalDiskProvisioned
      = wrapInt64 (resolvedApp.DiskQuota * app.NumberOfInstances) ∧
    (applyResolved cf guid app resolvedApp now2).1.TotalMemoryProvisioned
      = wrapInt64 (resolvedApp.Memory * app.NumberOfInstances) ∧
    Fetch.Space resolvedApp ∈ (applyResolved cf guid app resolvedApp now2).2 := by
  unfold applyResolved
  rw [hinst]
  rcases hs : cf.Space resolvedApp with e | space
  · by_cases hb : (resolvedApp.Buildpack != "") = true <;>
    by_cases hd : (resolvedApp.DetectedBuildpack != "") = true <;>
    simp [hb, hd]
  · rcases ho : cf.Org space with e | org <;>
    by_cases hb : (resolvedApp.Buildpack != "") = true <;>
    by_cases hd : (resolvedApp.DetectedBuildpack != "") = true <;>
    simp [hb, hd, ho]

/-- A refresh of a cached record happens only if the record is flagged or
not fresh. -/
theorem getAppData_refresh_cause (am : AppParser) (cf : CFClient) (guid : String)
    (now now2 : Int) (app : App) (hrec : am.Apps.lookup guid = some app)
    (hrefresh : (getAppData am cf guid now now2).calls ≠ []) :
    app.ErrorGrabbing = true ∨ app.updated ≤ timeToGrab now am.grabInterval := by
  unfold getAppData at hrefresh
  rw [hrec] at hrefresh
  by_cases hg : app.ErrorGrabbing = true
  · exact Or.inl hg
  · right
    by_contra hfresh
    have hlt : app.updated > timeToGrab now am.grabInterval := by omega
    simp [hg, hlt] at hrefresh

/-- C11, counterexample: the base fetch succeeds and the instance-list fetch
fails, yet `getAppData` returns the record and no error, the record stays in
`Apps`, and its `ErrorGrabbing` is false. -/
theorem getAppData_instances_failure_counterexample :
    instancesDownClient.GetAppInstances "guid-1" = Except.error "instances unreachable" ∧
    ∃ r, (getAppData staleParser instancesDownClient "guid-1" 1200000000000
            1200000000000).ret = Except.ok r ∧
      r.ErrorGrabbing = false ∧
      (getAppData staleParser instancesDownClient "guid-1" 1200000000000
        1200000000000).Apps.lookup "guid-1" = some r :=
  ⟨rfl, _, rfl, rfl, rfl⟩

/-- C11, amended: when `getAppData` performs a refresh in which the base
fetch succeeds and the instance-list fetch fails, it does not return that
error: it goes on to the space fetch and returns the record, which stays in
`Apps`; the record keeps the instance map and instance count it had, and its
provisioned disk and memory are the fetched quotas times that count. -/
theorem getAppData_instances_failure (am : AppParser) (cf : CFClient) (guid : String)
    (now now2 : Int) (resolvedApp : CFApp) (err : String)
    (hbase : cf.AppByGuid guid = Except.ok resolvedApp)
    (hinst : cf.GetAppInstances guid = Except.error err)
    (hrefresh : (getAppData am cf guid now now2).calls ≠ []) :
    ∃ r, (getAppData am cf guid now now2).ret = Except.ok r ∧
      (getAppData am cf guid now now2).Apps.lookup guid = some r ∧
      Fetch.Space resolvedApp ∈ (getAppData am cf guid now now2).calls ∧
      r.Instances = ((am.Apps.lookup guid).getD (newApp guid now)).Instances ∧
      r.NumberOfInstances = ((am.Apps.lookup guid).getD (newApp guid now)).NumberOfInstances ∧
      r.TotalDiskProvisioned = wrapInt64 (resolvedApp.DiskQuota *
        ((am.Apps.lookup guid).getD (newApp guid now)).NumberOfInstances) ∧
      r.TotalMemoryProvisioned = wrapInt64 (resolvedApp.Memory *
        ((am.Apps.lookup guid).getD (newApp guid now)).NumberOfInstances) := by
  obtain ⟨hret, hmap, hcalls⟩ := getAppData_refresh_ok am cf guid now now2 resolvedApp hbase hrefresh
  obtain ⟨h1, h2, h3, h4, h5⟩ := applyResolved_instances_error cf guid
    ((am.Apps.lookup guid).getD (newApp guid now)) resolvedApp now2 err hinst
  refine ⟨_, hret, hmap, ?_, h1, h2, h3, h4⟩
  rw [hcalls]
  exact List.mem_cons_of_mem _ h5

theorem getAppData_instances_failure_witness :
    ∃ r, (getAppData staleParser instancesDownClient "guid-1" 1200000000000
            1200000000000).ret = Except.ok r ∧
      r.NumberOfInstances = 0 :=
  (getAppData_instances_failure staleParser instancesDownClient "guid-1" 1200000000000
    1200000000000 _ "instances unreachable" rfl rfl (by decide)).imp
    fun _ h => ⟨h.1, h.2.2.2.2.1⟩

/-- C12, counterexample: the cached record has the buildpack label
`ruby_buildpack`; the refresh succeeds and the fetched app has neither an
explicit nor a detected buildpack; the record's `Buildpack` afterwards is
still `ruby_buildpack`, not the empty string. -/
theorem getAppData_Buildpack_counterexample :
    ∃ resolvedApp r, upClient.AppByGuid "guid-1" = Except.ok resolvedApp ∧
      resolvedApp.Buildpack = "" ∧ resolvedApp.DetectedBuildpack = "" ∧
      (getAppData rubyParser upClient "guid-1" 1200000000000 1200000000000).ret
        = Except.ok r ∧
      (getAppData rubyParser upClient "guid-1" 1200000000000 1200000000000).Apps.lookup
        "guid-1" = some r ∧
      r.Buildpack = "ruby_buildpack" :=
  ⟨_, _, rfl, rfl, rfl, rfl, rfl, rfl⟩

/-- C12, amended: after a `getAppData` refresh whose base fetch succeeds, the
record's `Buildpack` is the fetched explicit buildpack if it is non-empty,
else the fetched detected buildpack if it is non-empty, else the value the
record had before the refresh, which is the empty string for a record
created by this call. -/
theorem getAppData_Buildpack (am : AppParser) (cf : CFClient) (guid : String)
    (now now2 : Int) (resolvedApp : CFApp)
    (hbase : cf.AppByGuid guid = Except.ok resolvedApp)
    (hrefresh : (getAppData am cf guid now now2).calls ≠ []) :
    ∃ r, (getAppData am cf guid now now2).ret = Except.ok r ∧
      (getAppData am cf guid now now2).Apps.lookup guid = some r ∧
      (∀ app, am.Apps.lookup guid = some app →
        r.Buildpack =
          if resolvedApp.Buildpack != "" then resolvedApp.Buildpack
          else if resolvedApp.DetectedBuildpack != "" then resolvedApp.DetectedBuildpack
          else app.Buildpack) ∧
      (am.Apps.lookup guid = none →
        r.Buildpack =
          if resolvedApp.Buildpack != "" then resolvedApp.Buildpack
          else if resolvedApp.DetectedBuildpack != "" then resolvedApp.DetectedBuildpack
          else "") := by
  obtain ⟨hret, hmap, _⟩ := getAppData_refresh_ok am cf guid now now2 resolvedApp hbase hrefresh
  refine ⟨_, hret, hmap, ?_, ?_⟩
  · intro app hl
    rw [applyResolved_Buildpack, hl]
    rfl
  · intro hl
    rw [applyResolved_Buildpack, hl]
    rfl

theorem getAppData_Buildpack_witness :
    ∃ r, (getAppData staleParser upClient "guid-1" 1200000000000 1200000000000).ret
          = Except.ok r ∧
      (getAppData staleParser upClient "guid-1" 1200000000000 1200000000000).Apps.lookup
          "guid-1" = some r :=
  (getAppData_Buildpack staleParser upClient "guid-1" 1200000000000 1200000000000 _ rfl
    (by decide)).imp fun _ h => ⟨h.1, h.2.1⟩

/-- A refresh whose base fetch fails returns that error. -/
theorem getAppData_refresh_error (am : AppParser) (cf : CFClient) (guid : String)
    (now now2 : Int) (err : String) (hfail : cf.AppByGuid guid = Except.error err)
    (hrefresh : (getAppData am cf guid now now2).calls ≠ []) :
    (getAppData am cf guid now now2).ret = Except.error err := by
  unfold getAppData at hrefresh ⊢
  cases hl : am.Apps.lookup guid with
  | none =>
    simp only [refreshApp_of_error _ cf guid _ now2 err hfail]
    split <;> rfl
  | some app =>
    rw [hl] at hrefresh
    by_cases hhit : (!app.ErrorGrabbing && decide (app.updated > timeToGrab now am.grabInterval)) = true
    · simp [hhit] at hrefresh
    · simp only [hhit, refreshApp_of_error _ cf guid _ now2 err hfail]
      by_cases hg : app.ErrorGrabbing = true <;> simp [hg]

/-- C13, counterexample: the cached record was created at Unix second 1000
and is flagged `ErrorGrabbing = true`; a `getAppData` call in the same second
refreshes it and returns no error, and the record's `updated` is 1000 as
before, not strictly greater. -/
theorem getAppData_updated_counterexample :
    ∃ app r, flaggedNowParser.Apps.lookup "guid-1" = some app ∧
      (getAppData flaggedNowParser upClient "guid-1" 1000500000000 1000500000000).ret
        = Except.ok r ∧
      (getAppData flaggedNowParser upClient "guid-1" 1000500000000 1000500000000).calls ≠ [] ∧
      app.updated = 1000 ∧ timeUnix 1000500000000 = 1000 ∧ r.updated = 1000 :=
  ⟨_, _, rfl, rfl, by decide, by decide, by decide, by decide⟩

/-- C13, amended: for a cached record whose `updated` is not later than the
clock, a `getAppData` call that performs a refresh of it and returns no
error, with the clock not going backwards, sets `updated` to the Unix second
of the clock, which is greater than or equal to the value before; it is
strictly greater when the refresh was due to staleness (`ErrorGrabbing` was
false) under a grab interval of at least one and at most 153722867 minutes
(beyond which the interval does not fit a `time.Duration`). -/
theorem getAppData_updated_monotone (am : AppParser) (cf : CFClient) (guid : String)
    (now now2 : Int) (app r : App)
    (hrec : am.Apps.lookup guid = some app)
    (hrefresh : (getAppData am cf guid now now2).calls ≠ [])
    (hok : (getAppData am cf guid now now2).ret = Except.ok r)
    (hpast : app.updated ≤ timeUnix now)
    (hclock : timeUnix now ≤ timeUnix now2) :
    r.updated = timeUnix now2 ∧ app.updated ≤ r.updated ∧
    (app.ErrorGrabbing = false → 1 ≤ am.grabInterval → am.grabInterval ≤ 153722867 →
      app.updated < r.updated) := by
  have hr : r.updated = timeUnix now2 := by
    cases hb : cf.AppByGuid guid with
    | error err =>
      rw [getAppData_refresh_error am cf guid now now2 err hb hrefresh] at hok
      cases hok
    | ok resolvedApp =>
      obtain ⟨hret, _, _⟩ := getAppData_refresh_ok am cf guid now now2 resolvedApp hb hrefresh
      rw [hret] at hok
      have hrr := Except.ok.inj hok
      rw [← hrr]
      exact applyResolved_updated cf guid _ resolvedApp now2
  refine ⟨hr, by omega, ?_⟩
  intro hg h1 h2
  rcases getAppData_refresh_cause am cf guid now now2 app hrec hrefresh with hflag | hstale
  · rw [hg] at hflag
    cases hflag
  · rw [timeToGrab_eq now am.grabInterval (by omega) h2] at hstale
    omega

theorem getAppData_updated_monotone_witness :
    ∃ r, (getAppData staleParser upClient "guid-1" 1200000000000 1200000000000).ret
          = Except.ok r ∧ r.updated = 1200 ∧ (newApp "guid-1" 0).updated < r.updated :=
  ⟨_, rfl,
    (getAppData_updated_monotone staleParser upClient "guid-1" 1200000000000 1200000000000
      (newApp "guid-1" 0) _ rfl (by decide) rfl (by decide) (by decide)).1.trans (by decide),
    (getAppData_updated_monotone staleParser upClient "guid-1" 1200000000000 1200000000000
      (newApp "guid-1" 0) _ rfl (by decide) rfl (by decide) (by decide)).2.2 rfl
      (by decide) (by decide)⟩

/-! ### The log-safe string of the configuration -/

namespace Config

theorem mapGet_cons {F : Type} (a k : String) (b : JSONValue F)
    (m : List (String × JSONValue F)) :
    mapGet ((a, b) :: m) k = if a = k then some b else mapGet m k := rfl

theorem setIfPresent_cons {F : Type} (a attr : String) (b v : JSONValue F)
    (m : List (String × JSONValue F)) :
    setIfPresent ((a, b) :: m) attr v =
      (if a = attr then (a, v) else (a, b)) :: setIfPresent m attr v := rfl

theorem mapGet_setIfPresent_ne {F : Type} (m : List (String × JSONValue F)) (attr k : String)
    (v : JSONValue F) (h : k ≠ attr) : mapGet (setIfPresent m attr v) k = mapGet m k := by
  induction m with
  | nil => rfl
  | cons x m ih =>
    obtain ⟨a, b⟩ := x
    rw [setIfPresent_cons]
    by_cases ha : a = attr
    · have hk : ¬ a = k := fun e => h (e.symm.trans ha)
      rw [if_pos ha, mapGet_cons, mapGet_cons, if_neg hk, if_neg hk, ih]
    · rw [if_neg ha, mapGet_cons, mapGet_cons, ih]

theorem mapGet_setIfPresent_self {F : Type} (m : List (String × JSONValue F)) (attr : String)
    (v : JSONValue F) : mapGet (setIfPresent m attr v) attr = (mapGet m attr).map fun _ => v := by
  induction m with
  | nil => rfl
  | cons x m ih =>
    obtain ⟨a, b⟩ := x
    rw [setIfPresent_cons]
    by_cases ha : a = attr
    · rw [if_pos ha, mapGet_cons, mapGet_cons, if_pos ha, if_pos ha]
      rfl
    · rw [if_neg ha, mapGet_cons, mapGet_cons, if_neg ha, if_neg ha, ih]

theorem maskKeyList_encodeStrings {F : Type} (l : Option (List String)) :
    maskKeyList (encodeStrings l : JSONValue F) =
      l.map fun keys => JSONValue.array (List.replicate keys.length mask) := by
  cases l with
  | none => rfl
  | some keys =>
    simp only [encodeStrings, maskKeyList, Option.map_some', List.map_map]
    congr 2
    induction keys with
    | nil => rfl
    | cons k ks ih => simp only [List.map_cons, List.length_cons, List.replicate_succ, ih]; rfl

theorem maskMembers_encode {F : Type} (entries : List (Sigma fun _ : String => Option (List String))) :
    maskMembers (entries.map fun e => (e.1, (encodeStrings e.2 : JSONValue F))) =
      shapeMask (entries.map fun e => (e.1, e.2.map List.length)) := by
  induction entries with
  | nil => rfl
  | cons e rest ih =>
    obtain ⟨k, l⟩ := e
    cases l with
    | none => rfl
    | some keys =>
      simp only [List.map_cons, maskMembers, maskKeyList_encodeStrings, Option.map_some', ih,
        shapeMask]

theorem mapGet_foldl_mask {F : Type} (conv : Float64Conv F) (c : Config) :
    mapGet (["ClientSecret", "DataDogAPIKey"].foldl
        (fun m attr => setIfPresent m attr (JSONValue.string "*****")) (configAsMap conv c))
      "DataDogAdditionalEndpoints" = some (encodeEndpoints c.DataDogAdditionalEndpoints) := by
  simp only [List.foldl]
  rw [mapGet_setIfPresent_ne _ _ _ _ (by decide), mapGet_setIfPresent_ne _ _ _ _ (by decide)]
  rfl

/-- The result of `AsLogString` in closed form: a panic exactly when an
endpoint has a nil key list, else the rendering of the masked map. -/
theorem AsLogString_eq {F : Type} (render : List (String × JSONValue F) → Except String String)
    (conv : Float64Conv F) (c : Config) :
    AsLogString render conv c =
      match c.DataDogAdditionalEndpoints with
      | none => some (render (maskedMap conv c .null))
      | some endpoints =>
        (shapeMask (endpoints.entries.map fun e => (e.1, e.2.map List.length))).map
          fun ms => render (maskedMap conv c (.object ms)) := by
  unfold AsLogString
  simp only [mapGet_foldl_mask]
  cases hc : c.DataDogAdditionalEndpoints with
  | none =>
    simp only [encodeEndpoints]
    congr 2
    simp [maskedMap, setIfPresent, configAsMap, hc, encodeEndpoints, mask]
  | some endpoints =>
    simp only [encodeEndpoints, maskEndpoints, maskMembers_encode]
    cases shapeMask (endpoints.entries.map fun e => (e.1, e.2.map List.length)) with
    | none => rfl
    | some ms => rfl

theorem maskedMap_congr {F : Type} (conv : Float64Conv F) (c : Config) (secret apiKey : String)
    (endpoints : Option (AList (fun _ : String => Option (List String)))) (v : JSONValue F) :
    maskedMap conv { c with ClientSecret := secret, DataDogAPIKey := apiKey,
                            DataDogAdditionalEndpoints := endpoints } v = maskedMap conv c v := by
  simp [maskedMap, setIfPresent, configAsMap]

theorem shapeMask_eq_some {F : Type}
    (entries : List (Sigma fun _ : String => Option (List String)))
    (ms : List (String × JSONValue F))
    (h : shapeMask (entries.map fun e => (e.1, e.2.map List.length)) = some ms) :
    ms = entries.map fun e =>
      (e.1, JSONValue.array (List.replicate (e.2.getD []).length mask)) := by
  induction entries generalizing ms with
  | nil =>
    simp only [List.map_nil, shapeMask] at h
    exact (Option.some.inj h).symm
  | cons e rest ih =>
    obtain ⟨k, l⟩ := e
    cases l with
    | none => simp [shapeMask] at h
    | some keys =>
      simp only [List.map_cons, Option.map_some', shapeMask] at h
      cases hr : shapeMask (F := F) (rest.map fun e => (e.1, e.2.map List.length)) with
      | none => simp [hr] at h
      | some rest' =>
        rw [hr] at h
        simp only [Option.map_some'] at h
        rw [← Option.some.inj h, ih rest' hr]
        rfl

theorem shapeMask_eq_none_iff {F : Type}
    (entries : List (Sigma fun _ : String => Option (List String))) :
    shapeMask (F := F) (entries.map fun e => (e.1, e.2.map List.length)) = none ↔
      ∃ e ∈ entries, e.2 = none := by
  induction entries with
  | nil => simp [shapeMask]
  | cons e rest ih =>
    obtain ⟨k, l⟩ := e
    cases l with
    | none => simp [shapeMask]
    | some keys =>
      simp only [List.map_cons, Option.map_some', shapeMask, Option.map_eq_none', ih]
      simp

/-- `AsLogString` panics exactly when `DataDogAdditionalEndpoints` maps an
endpoint to a nil key list; for every other config it returns. -/
theorem AsLogString_eq_none_iff {F : Type}
    (render : List (String × JSONValue F) → Except String String)
    (conv : Float64Conv F) (c : Config) :
    AsLogString render conv c = none ↔
      ∃ endpoints, c.DataDogAdditionalEndpoints = some endpoints ∧
        ∃ e ∈ endpoints.entries, e.2 = none := by
  rw [AsLogString_eq]
  cases c.DataDogAdditionalEndpoints with
  | none => simp
  | some endpoints =>
    simp only [Option.map_eq_none', shapeMask_eq_none_iff, Option.some.injEq, exists_eq_left']

/-- C14: for two configs that differ only in `ClientSecret`, `DataDogAPIKey`
and the key strings under `DataDogAdditionalEndpoints`, `AsLogString` gives
the same result; and when it returns a string, that string is the rendering
of a map in which `ClientSecret` and `DataDogAPIKey` are `"*****"`, every
listed additional-endpoint key is `"*****"`, and every other field has the
value the config has for it. -/
theorem AsLogString_hides_secrets {F : Type}
    (render : List (String × JSONValue F) → Except String String)
    (conv : Float64Conv F) (c1 c2 : Config) (h : sameExceptSecrets c1 c2) :
    AsLogString render conv c1 = AsLogString render conv c2 ∧
    ∀ s, AsLogString render conv c1 = some (Except.ok s) →
      ∃ asMap, render asMap = Except.ok s ∧
        mapGet asMap "ClientSecret" = some (JSONValue.string "*****") ∧
        mapGet asMap "DataDogAPIKey" = some (JSONValue.string "*****") ∧
        mapGet asMap "DataDogAdditionalEndpoints"
          = some (maskedEndpoints c1.DataDogAdditionalEndpoints) ∧
        ∀ k, k ≠ "ClientSecret" → k ≠ "DataDogAPIKey" → k ≠ "DataDogAdditionalEndpoints" →
          mapGet asMap k = mapGet (configAsMap conv c1) k := by
  have hfields : ∀ v : JSONValue F,
      mapGet (maskedMap conv c1 v) "ClientSecret" = some (JSONValue.string "*****") ∧
      mapGet (maskedMap conv c1 v) "DataDogAPIKey" = some (JSONValue.string "*****") ∧
      mapGet (maskedMap conv c1 v) "DataDogAdditionalEndpoints" = some v ∧
      ∀ k, k ≠ "ClientSecret" → k ≠ "DataDogAPIKey" → k ≠ "DataDogAdditionalEndpoints" →
        mapGet (maskedMap conv c1 v) k = mapGet (configAsMap conv c1) k := by
    intro v
    refine ⟨rfl, rfl, rfl, ?_⟩
    intro k h1 h2 h3
    unfold maskedMap
    rw [mapGet_setIfPresent_ne _ _ _ _ h3, mapGet_setIfPresent_ne _ _ _ _ h2,
      mapGet_setIfPresent_ne _ _ _ _ h1]
  constructor
  · obtain ⟨⟨secret, apiKey, endpoints, rfl⟩, hshape⟩ := h
    rw [AsLogString_eq, AsLogString_eq]
    simp only [maskedMap_congr]
    cases h1 : c1.DataDogAdditionalEndpoints with
    | none =>
      cases endpoints with
      | none => rfl
      | some m2 => simp [endpointShape, h1] at hshape
    | some m1 =>
      cases endpoints with
      | none => simp [endpointShape, h1] at hshape
      | some m2 =>
        simp only [endpointShape, h1, Option.map_some', Option.some.injEq] at hshape
        simp only [hshape]
  · intro s hs
    rw [AsLogString_eq] at hs
    cases h1 : c1.DataDogAdditionalEndpoints with
    | none =>
      rw [h1] at hs
      exact ⟨_, Option.some.inj hs, hfields _⟩
    | some m1 =>
      rw [h1] at hs
      cases hm : shapeMask (F := F) (m1.entries.map fun e => (e.1, e.2.map List.length)) with
      | none => simp [hm] at hs
      | some ms =>
        simp only [hm, Option.map_some'] at hs
        refine ⟨_, Option.some.inj hs, ?_⟩
        have hms := shapeMask_eq_some m1.entries ms hm
        obtain ⟨f1, f2, f3, f4⟩ := hfields (JSONValue.object ms)
        refine ⟨f1, f2, ?_, f4⟩
        rw [f3, hms]
        rfl

theorem AsLogString_hides_secrets_witness :
    AsLogString (F := Int) (fun _ => Except.ok "rendered")
        { ofInt := fun i => i, ofUInt64 := fun n => (n : Int), zero := 0 } twoKeysConfig
      = AsLogString (fun _ => Except.ok "rendered")
        { ofInt := fun i => i, ofUInt64 := fun n => (n : Int), zero := 0 } otherKeysConfig :=
  (AsLogString_hides_secrets (fun _ => Except.ok "rendered")
    { ofInt := fun i => i, ofUInt64 := fun n => (n : Int), zero := 0 }
    twoKeysConfig otherKeysConfig ⟨⟨_, _, _, rfl⟩, rfl⟩).1

/-- C15 (the code at the failing input): for a config whose
`DataDogAdditionalEndpoints` maps an endpoint to a nil key list,
`AsLogString` returns neither a string nor an error: the type assertion
`v.([]interface{})` on the nil value panics. -/
theorem AsLogString_panics_on_nil_keys {F : Type}
    (render : List (String × JSONValue F) → Except String String) (conv : Float64Conv F) :
    AsLogString render conv nilKeysConfig = none := by
  rfl

/-! ### The environment overrides -/

/-- The four guarded overrides leave the value unchanged when the variable is
unset or empty. -/
theorem guarded_overrides_keep (env : String → String) (atoi : String → Except String Int)
    (name : String) (h : env name = "") (s : String) (n : Nat) (i : Int) (b : Bool) :
    overrideWithEnvVar env name s = s ∧
    overrideWithEnvUint32 env atoi name n = some n ∧
    overrideWithEnvInt env atoi name i = some i ∧
    overrideWithEnvBool env name b = some b := by
  simp [overrideWithEnvVar, overrideWithEnvUint32, overrideWithEnvInt, overrideWithEnvBool, h]

/-- With the variable unset or empty `overrideWithEnvSliceStrings` replaces
the value by the one-element list holding the empty string. -/
theorem overrideWithEnvSliceStrings_unset (env : String → String) (name : String)
    (h : env name = "") (value : Option (List String)) :
    overrideWithEnvSliceStrings env name value = some [""] := by
  simp [overrideWithEnvSliceStrings, h, stringsSplit, splitComma]

/-- C16 (the code at the failing input): no environment variable is set and
the configuration file gives `NoProxy = ["internal.example"]`; `Parse`
returns a config whose `NoProxy` is the one-element list `[""]`, while the
batch size read from the file, which goes through a guarded override, is
unchanged: `overrideWithEnvSliceStrings` assigns without testing the
variable. -/
theorem Parse_overwrites_NoProxy (atoi : String → Except String Int) :
    (∀ value, overrideWithEnvSliceStrings emptyEnv "NO_PROXY" value = some [""]) ∧
    fileConfig.NoProxy = some ["internal.example"] ∧
    ∃ c, Parse (fun _ => Except.ok []) (fun _ => Except.ok fileConfig) emptyEnv atoi
            "config.json" = some (Except.ok c) ∧
      c.NoProxy = some [""] ∧ c.CloudControllerAPIBatchSize = 500 :=
  ⟨fun _ => rfl, rfl, _, rfl, rfl, rfl⟩

end Config

end Nozzle
